import Mathlib

/-!
Cafe relay API (`core/cafe_api_v1.go`): a shallow embedding.

The handlers of `cafeApi` are embedded as pure functions.  A handler receives

* a `Node`: the collaborators it calls through `c.node` (the datastore, the
  content store behind `c.node.Ipfs()`, the protobuf and cid codecs), given as
  functions over two state components, `δ` for the datastore and `κ` for the
  content store;
* a `Context`: what the handler reads from the `gin.Context`;
* the current `State`;

and returns a `Result`: the reply, the new state and the list of collaborator
calls it issued, in order, each with its outcome.  `store` receives the
multipart form in place of the `Context`; `search` returns the `Stream` it
wrote.

Bytes are natural numbers below 256.  Log statements are not embedded, with
one exception: the debug line of the Search step reads `rpmes.Message.Type`,
which faults when the result carries no message, and that fault is embedded.

The file also embeds `Mobile.Start`, `Mobile.Stop` and `getMill` of package
`mobile`, as functions of what the core node returns, and `api.readOpts` of
`core/api.go`, over lists of characters.
-/

namespace Textile

/-! ## Data model -/

abbrev Bytes := List Nat

abbrev Error := String

/-- Outcome of a fallible call that returns a value, `(T, error)` in the source. -/
inductive Res (α : Type) where
  | ok (val : α)
  | err (e : Error)
  deriving DecidableEq, Repr

/-- Content identifier; `hash` is `id.Hash().B58String()`. -/
structure Cid where
  codec : Nat
  hash : String
  deriving DecidableEq, Repr

/-- Pin modes of `go-ipfs/pin`. -/
inductive PinMode where
  | recursive
  | direct
  | indirect
  | internal
  | notPinned
  | any
  deriving DecidableEq, Repr

/-- Pin record `pin.Pinned` returned by `Pinning.CheckIfPinned`. -/
structure Pinned where
  key : Cid
  mode : PinMode
  deriving DecidableEq, Repr

/-- Graph node returned by `ipfs.NodeAtCid`. -/
structure IpldNode where
  cid : Cid
  links : List Cid
  deriving DecidableEq, Repr

structure Timestamp where
  seconds : Int
  nanos : Int
  deriving DecidableEq, Repr

/-- Record `pb.CafeClient`. -/
structure CafeClient where
  id : String
  address : String
  deriving DecidableEq, Repr

/-- Record `pb.CafeClientThread`. -/
structure CafeClientThread where
  id : String
  client : String
  ciphertext : Bytes
  deriving DecidableEq, Repr

/-- Record `pb.CafeClientMessage`. -/
structure CafeClientMessage where
  id : String
  peer : String
  client : String
  date : Timestamp
  deriving DecidableEq, Repr

/-- Value `any.Any`: a type-tagged serialized payload. -/
structure AnyPayload where
  typeUrl : String
  value : Bytes
  deriving DecidableEq, Repr

/-- Value `pb.Message`; `payload` is a pointer in the source and may be nil. -/
structure Message where
  type : Nat
  payload : Option AnyPayload
  deriving DecidableEq, Repr

/-- Value `pb.Envelope`; `message` is a pointer in the source and may be nil. -/
structure Envelope where
  message : Option Message
  sig : Bytes
  deriving DecidableEq, Repr

/-- Value `pb.ThreadEnvelope`; `block` is nil when the envelope carries no block. -/
structure ThreadEnvelope where
  thread : String
  node : Bytes
  block : Option Bytes
  deriving DecidableEq, Repr

/-! ## Request, reply, trace -/

/-- Error returned by reading the request body. -/
inductive IoError where
  | eof
  | other (msg : String)
  deriving DecidableEq, Repr

/-- What a handler reads from its `gin.Context`: the keys set by the
authentication middleware (`g.GetString`), the route parameters (`g.Param`),
and the outcome of `buf.ReadFrom(g.Request.Body)`. -/
structure Context where
  keys : String → String
  params : String → String
  body : Bytes
  readErr : Option IoError

def Context.getString (g : Context) (key : String) : String := g.keys key

def Context.param (g : Context) (key : String) : String := g.params key

/-- Reply of a handler: the HTTP status it set, or a Go runtime panic. -/
inductive Reply where
  | status (code : Nat)
  | panic
  deriving DecidableEq, Repr

def StatusOK : Nat := 200
def StatusNoContent : Nat := 204
def StatusBadRequest : Nat := 400
def StatusForbidden : Nat := 403
def StatusInternalServerError : Nat := 500

/-- One call issued to a collaborator, with its arguments and its outcome. -/
inductive Event where
  | threadsAddOrUpdate (rec : CafeClientThread) (err : Option Error)
  | threadsDelete (id client : String) (err : Option Error)
  | messagesAddOrUpdate (rec : CafeClientMessage) (err : Option Error)
  | addObject (data : Bytes) (pin : Bool) (res : Res Cid)
  | addData (data : Bytes) (pin hidden : Bool) (res : Res Cid)
  | nodeAtCid (id : Cid) (res : Res IpldNode)
  | extractNode (node : IpldNode) (downloadBlock : Bool) (err : Option Error)
  | checkIfPinned (id : Cid) (res : Res (List Pinned))
  | unpinCid (key : Cid) (recursive : Bool) (err : Option Error)
  | notifyClient (id : String) (err : Option Error)
  | openFile (name : String) (err : Option Error)
  deriving DecidableEq, Repr

/-- The collaborators reached through `c.node`. -/
structure Node (δ κ : Type) where
  /-- Lookup `datastore.CafeClients().Get`. -/
  cafeClientsGet : δ → String → Option CafeClient
  /-- Upsert `datastore.CafeClientThreads().AddOrUpdate`. -/
  threadsAddOrUpdate : δ → CafeClientThread → Option Error × δ
  /-- Removal `datastore.CafeClientThreads().Delete`. -/
  threadsDelete : δ → String → String → Option Error × δ
  /-- Upsert `datastore.CafeClientMessages().AddOrUpdate`. -/
  messagesAddOrUpdate : δ → CafeClientMessage → Option Error × δ
  /-- Structured pin `ipfs.AddObject`. -/
  addObject : κ → Bytes → Bool → Res Cid × κ
  /-- Content id that the content store assigns to raw bytes. -/
  cidOfData : Bytes → Cid
  /-- Storage outcome of `ipfs.AddData`: its error, and the new store. -/
  addDataStore : κ → Bytes → Bool → Bool → Option Error × κ
  /-- Resolution `ipfs.NodeAtCid`. -/
  nodeAtCid : κ → Cid → Res IpldNode × κ
  /-- Recursive pin of the children, `extractNode`. -/
  extractNode : κ → IpldNode → Bool → Option Error × κ
  /-- Lookup `Pinning.CheckIfPinned`. -/
  checkIfPinned : κ → Cid → Res (List Pinned)
  /-- Unpin `ipfs.UnpinCid`. -/
  unpinCid : κ → Cid → Bool → Option Error × κ
  /-- Decoder `cid.Decode`. -/
  cidDecode : String → Res Cid
  /-- Decoder `proto.Unmarshal` into a `pb.Envelope`. -/
  unmarshalEnvelope : Bytes → Res Envelope
  /-- Decoder `ptypes.UnmarshalAny` into a `pb.ThreadEnvelope`. -/
  unmarshalAny : Option AnyPayload → Res ThreadEnvelope
  /-- Encoder `proto.Marshal` of a `pb.Envelope`. -/
  marshalEnvelope : Envelope → Res Bytes
  /-- Decoder `peer.IDB58Decode`. -/
  peerDecode : String → Res String
  /-- Outcome of `cafe.notifyClient` for a client id. -/
  notifyClient : String → Option Error

/-- State the handlers act on. -/
structure State (δ κ : Type) where
  db : δ
  ipfs : κ

/-- What a handler leaves behind. -/
structure Result (δ κ : Type) where
  reply : Reply
  db : δ
  ipfs : κ
  trace : List Event

variable {δ κ : Type}

/-- Modelled from the spec: `cafeApi.abort` (core/cafe_api.go, not under src)
ends the request with the given status; the plain-text error message of the
response is not represented. -/
def abort (code : Nat) (db : δ) (ipfs : κ) (trace : List Event) : Result δ κ :=
  { reply := Reply.status code, db := db, ipfs := ipfs, trace := trace }

/-- Modelled from the spec: `ipfs.AddData` (package ipfs, not under src) pins
raw bytes and returns their content id; content is content-addressed, so the
id is a function of the bytes alone. -/
def AddData (n : Node δ κ) (k : κ) (data : Bytes) (pin hidden : Bool) : Res Cid × κ :=
  match n.addDataStore k data pin hidden with
  | (some e, k1) => (Res.err e, k1)
  | (none, k1) => (Res.ok (n.cidOfData data), k1)

/-- The test `err != nil && err != io.EOF` on the body read. -/
def readFailed (g : Context) : Bool :=
  match g.readErr with
  | none => false
  | some IoError.eof => false
  | some (IoError.other _) => true

/-! ## Handlers -/

/-- Handler `cafeApi.storeThread`. -/
def storeThread (n : Node δ κ) (g : Context) (s : State δ κ) : Result δ κ :=
  let frm := g.getString "from"
  let id := g.param "id"
  match n.cafeClientsGet s.db frm with
  | none => abort StatusForbidden s.db s.ipfs []
  | some client =>
    if readFailed g then abort StatusBadRequest s.db s.ipfs []
    else
      let rec_ : CafeClientThread := { id := id, client := client.id, ciphertext := g.body }
      match n.threadsAddOrUpdate s.db rec_ with
      | (some e, db1) =>
          abort StatusInternalServerError db1 s.ipfs [Event.threadsAddOrUpdate rec_ (some e)]
      | (none, db1) =>
          { reply := Reply.status StatusNoContent, db := db1, ipfs := s.ipfs,
            trace := [Event.threadsAddOrUpdate rec_ none] }

/-- Handler `cafeApi.unstoreThread`. -/
def unstoreThread (n : Node δ κ) (g : Context) (s : State δ κ) : Result δ κ :=
  let frm := g.getString "from"
  let id := g.param "id"
  match n.cafeClientsGet s.db frm with
  | none => abort StatusForbidden s.db s.ipfs []
  | some client =>
    match n.threadsDelete s.db id client.id with
    | (some e, db1) =>
        abort StatusInternalServerError db1 s.ipfs [Event.threadsDelete id client.id (some e)]
    | (none, db1) =>
        { reply := Reply.status StatusNoContent, db := db1, ipfs := s.ipfs,
          trace := [Event.threadsDelete id client.id none] }

/-- Steps 7–9 of `cafeApi.deliverMessage`: upsert the inbox record, start the
notification goroutine, respond.  The goroutine is recorded in the trace with
the outcome of its `notifyClient` call, which it only logs. -/
def deliverRecord (n : Node δ κ) (frm : String) (client : CafeClient) (now : Timestamp)
    (id : Cid) (db : δ) (k : κ) (tr : List Event) : Result δ κ :=
  let msgId := id.hash
  let rec_ : CafeClientMessage := { id := msgId, peer := frm, client := client.id, date := now }
  match n.messagesAddOrUpdate db rec_ with
  | (some e, db1) =>
      abort StatusInternalServerError db1 k (tr ++ [Event.messagesAddOrUpdate rec_ (some e)])
  | (none, db1) =>
      { reply := Reply.status StatusOK, db := db1, ipfs := k,
        trace := tr ++ [Event.messagesAddOrUpdate rec_ none,
          Event.notifyClient client.id (n.notifyClient client.id)] }

/-- Step 6 of `cafeApi.deliverMessage` and what follows: pin the whole
envelope as raw bytes, then write the inbox record. -/
def deliverEnvelope (n : Node δ κ) (frm : String) (client : CafeClient) (now : Timestamp)
    (body : Bytes) (db : δ) (k : κ) (tr : List Event) : Result δ κ :=
  match AddData n k body true false with
  | (Res.err e, k1) =>
      abort StatusBadRequest db k1 (tr ++ [Event.addData body true false (Res.err e)])
  | (Res.ok id, k1) =>
      deliverRecord n frm client now id db k1 (tr ++ [Event.addData body true false (Res.ok id)])

/-- The call `extractNode(c.node.Ipfs(), node, tenv.Block == nil)` of
`cafeApi.deliverMessage` and what follows. -/
def deliverExtract (n : Node δ κ) (frm : String) (client : CafeClient) (now : Timestamp)
    (body : Bytes) (tenv : ThreadEnvelope) (node : IpldNode) (db : δ) (k : κ)
    (tr : List Event) : Result δ κ :=
  let downloadBlock := tenv.block.isNone
  match n.extractNode k node downloadBlock with
  | (some e, k1) =>
      abort StatusBadRequest db k1 (tr ++ [Event.extractNode node downloadBlock (some e)])
  | (none, k1) =>
      deliverEnvelope n frm client now body db k1
        (tr ++ [Event.extractNode node downloadBlock none])

/-- The part of `cafeApi.deliverMessage` after the thread envelope is decoded:
pin the node, resolve it, pin the carried block if there is one, extract, pin
the envelope, write the inbox record. -/
def deliverPins (n : Node δ κ) (frm : String) (client : CafeClient) (now : Timestamp)
    (body : Bytes) (tenv : ThreadEnvelope) (s : State δ κ) : Result δ κ :=
  match n.addObject s.ipfs tenv.node true with
  | (Res.err e, k1) => abort StatusBadRequest s.db k1 [Event.addObject tenv.node true (Res.err e)]
  | (Res.ok oid, k1) =>
    let tr1 := [Event.addObject tenv.node true (Res.ok oid)]
    match n.nodeAtCid k1 oid with
    | (Res.err e, k2) => abort StatusBadRequest s.db k2 (tr1 ++ [Event.nodeAtCid oid (Res.err e)])
    | (Res.ok node, k2) =>
      let tr2 := tr1 ++ [Event.nodeAtCid oid (Res.ok node)]
      match tenv.block with
      | some block =>
        match AddData n k2 block true false with
        | (Res.err e, k3) =>
            abort StatusBadRequest s.db k3 (tr2 ++ [Event.addData block true false (Res.err e)])
        | (Res.ok c, k3) =>
            deliverExtract n frm client now body tenv node s.db k3
              (tr2 ++ [Event.addData block true false (Res.ok c)])
      | none => deliverExtract n frm client now body tenv node s.db k2 tr2

/-- Handler `cafeApi.deliverMessage`; `now` is the value `ptypes.TimestampNow()`
returns in this call. -/
def deliverMessage (n : Node δ κ) (now : Timestamp) (g : Context) (s : State δ κ) :
    Result δ κ :=
  let frm := g.param "from"
  let clientId := g.param "to"
  match n.cafeClientsGet s.db clientId with
  | none => { reply := Reply.status StatusOK, db := s.db, ipfs := s.ipfs, trace := [] }
  | some client =>
    if readFailed g then abort StatusBadRequest s.db s.ipfs []
    else
      let body := g.body
      match n.unmarshalEnvelope body with
      | Res.err _ => abort StatusBadRequest s.db s.ipfs []
      | Res.ok nenv =>
        match nenv.message with
        | none => { reply := Reply.panic, db := s.db, ipfs := s.ipfs, trace := [] }
        | some message =>
          match n.unmarshalAny message.payload with
          | Res.err _ => abort StatusBadRequest s.db s.ipfs []
          | Res.ok tenv => deliverPins n frm client now body tenv s

/-- The loop of `cafeApi.unstore` over the pin records: unpin every record
whose mode is not `NotPinned`, stop at the first unpin that fails. -/
def unstoreLoop (n : Node δ κ) : List Pinned → κ → List Event → Option Error × κ × List Event
  | [], k, tr => (none, k, tr)
  | p :: ps, k, tr =>
    if p.mode ≠ PinMode.notPinned then
      match n.unpinCid k p.key true with
      | (some e, k1) => (some e, k1, tr ++ [Event.unpinCid p.key true (some e)])
      | (none, k1) => unstoreLoop n ps k1 (tr ++ [Event.unpinCid p.key true none])
    else unstoreLoop n ps k tr

/-- Handler `cafeApi.unstore`. -/
def unstore (n : Node δ κ) (g : Context) (s : State δ κ) : Result δ κ :=
  match n.cidDecode (g.param "cid") with
  | Res.err _ => abort StatusBadRequest s.db s.ipfs []
  | Res.ok id =>
    match n.checkIfPinned s.ipfs id with
    | Res.err e => abort StatusBadRequest s.db s.ipfs [Event.checkIfPinned id (Res.err e)]
    | Res.ok pinned =>
      match unstoreLoop n pinned s.ipfs [Event.checkIfPinned id (Res.ok pinned)] with
      | (some _, k1, tr) => abort StatusBadRequest s.db k1 tr
      | (none, k1, tr) =>
          { reply := Reply.status StatusNoContent, db := s.db, ipfs := k1, trace := tr }


/-! ## Search: the streamed, framed response -/

/-- Conversion `uint16(n)` of an `int`. -/
def uint16 (n : Nat) : Nat := n % 65536

/-- Encoding `binary.LittleEndian.PutUint16(size, v)` into a fresh 2-byte slice. -/
def putUint16LE (v : Nat) : Bytes := [v % 256, v / 256 % 256]

/-- The chunk written for one serialized result: `append(size, payload...)`. -/
def frame (payload : Bytes) : Bytes := putUint16LE (uint16 payload.length) ++ payload

/-- The case of the `select` that fires in one call of the streaming step:
the request context is done, an error is received from `errCh`, or a receive
from `rpmesCh` completes (`none` when the channel is closed, `ok = false`). -/
inductive Select where
  | ctxDone
  | errRecv (err : Error)
  | msgRecv (rpmes : Option Envelope)
  deriving DecidableEq, Repr

/-- Response stream of one Search request: the chunks written with `g.Data`,
the last status set, whether `cancel` has been closed, and whether the step
panicked (closing a closed channel, or reading the type of a nil `Message`). -/
structure Stream where
  chunks : List Bytes
  status : Option Nat
  cancelClosed : Bool
  panicked : Bool
  deriving DecidableEq, Repr

def Stream.init : Stream :=
  { chunks := [], status := none, cancelClosed := false, panicked := false }

/-- The closure passed to `g.Stream` in `cafeApi.search`: one `select`, and the
boolean it returns (keep the stream open).  Before it serializes a result the
step evaluates `rpmes.Message.Type` for its debug line: on a result whose
`Message` is nil this is a nil dereference, the step panics and nothing is
written. -/
def searchStep (n : Node δ κ) (ev : Select) (st : Stream) : Bool × Stream :=
  match ev with
  | Select.ctxDone =>
      if st.cancelClosed then (false, { st with panicked := true })
      else (true, { st with cancelClosed := true })
  | Select.errRecv _ => (false, { st with status := some StatusBadRequest })
  | Select.msgRecv none => (false, { st with status := some StatusOK })
  | Select.msgRecv (some rpmes) =>
      match rpmes.message with
      | none => (false, { st with panicked := true })
      | some _ =>
        match n.marshalEnvelope rpmes with
        | Res.err _ => (false, { st with status := some StatusInternalServerError })
        | Res.ok payload =>
            (true, { st with status := some StatusOK, chunks := st.chunks ++ [frame payload] })

/-- The loop of `g.Stream`: call the step until it returns false, over the
sequence of `select` outcomes of this request.  The sequence ends where
`g.Stream` itself stops calling the step (before each call it checks whether
the client has gone). -/
def streamLoop (n : Node δ κ) : List Select → Stream → Stream
  | [], st => st
  | ev :: evs, st =>
    match searchStep n ev st with
    | (true, st1) => streamLoop n evs st1
    | (false, st1) => st1

/-- Handler `cafeApi.search`; `evs` is the sequence of `select` outcomes that
the channels of `HandleStream` and the request context produce. -/
def search (n : Node δ κ) (g : Context) (evs : List Select) : Stream :=
  match n.peerDecode (g.getString "from") with
  | Res.err _ => { Stream.init with status := some StatusBadRequest }
  | Res.ok _ =>
    if readFailed g then { Stream.init with status := some StatusBadRequest }
    else
      match n.unmarshalEnvelope g.body with
      | Res.err _ => { Stream.init with status := some StatusBadRequest }
      | Res.ok _ => streamLoop n evs Stream.init

/-- All bytes written to the response, in order. -/
def Stream.bytes (st : Stream) : Bytes := st.chunks.flatten

/-- The `select` outcomes other than the context case in which the step
neither faults nor fails to serialize: the results channel is found closed, an
error is received, or a result is received that carries a message and
serializes. -/
def regular (n : Node δ κ) : Select → Bool
  | Select.ctxDone => false
  | Select.errRecv _ => true
  | Select.msgRecv none => true
  | Select.msgRecv (some rpmes) =>
      rpmes.message.isSome &&
        (match n.marshalEnvelope rpmes with
         | Res.ok _ => true
         | Res.err _ => false)

/-- Inverse framing, following the wire format: read a 2-byte little-endian
length `n`, then `n` bytes, repeat until the input is exhausted; `none` when
the input ends inside a frame.  `fuel` bounds the number of frames. -/
def readFramesAux : Nat → Bytes → Option (List Bytes)
  | _, [] => some []
  | 0, _ :: _ => none
  | _ + 1, [_] => none
  | fuel + 1, b0 :: b1 :: rest =>
    let len := b0 + 256 * b1
    if len ≤ rest.length then
      match readFramesAux fuel (rest.drop len) with
      | some frames => some (rest.take len :: frames)
      | none => none
    else none

/-- Inverse framing of a whole response. -/
def readFrames (bs : Bytes) : Option (List Bytes) := readFramesAux bs.length bs

/-! ## Store: the multipart upload -/

/-- One part of the uploaded form, `multipart.FileHeader`: its file name and
the outcome of `file.Open()`, the content of the part. -/
structure FileHeader where
  filename : String
  opened : Res Bytes
  deriving DecidableEq, Repr

/-- The loop of `cafeApi.store` over the parts: open the part, pin it as a
structured object, and when that fails rewind (`f.Seek(0, 0)`) and pin its
content as raw data; stop at the first part that cannot be opened or pinned. -/
def storeLoop (n : Node δ κ) : List FileHeader → κ → List Event → Option Error × κ × List Event
  | [], k, tr => (none, k, tr)
  | file :: files, k, tr =>
    match file.opened with
    | Res.err e => (some e, k, tr ++ [Event.openFile file.filename (some e)])
    | Res.ok data =>
      match n.addObject k data true with
      | (Res.ok aid, k1) =>
          storeLoop n files k1
            (tr ++ [Event.openFile file.filename none, Event.addObject data true (Res.ok aid)])
      | (Res.err e, k1) =>
        match AddData n k1 data true false with
        | (Res.ok aid, k2) =>
            storeLoop n files k2
              (tr ++ [Event.openFile file.filename none, Event.addObject data true (Res.err e),
                Event.addData data true false (Res.ok aid)])
        | (Res.err e2, k2) =>
            (some e2, k2,
              tr ++ [Event.openFile file.filename none, Event.addObject data true (Res.err e),
                Event.addData data true false (Res.err e2)])

/-- Handler `cafeApi.store`; `form` is the outcome of `g.MultipartForm()`: the
parts under the key "file", or an error. -/
def store (n : Node δ κ) (form : Res (List FileHeader)) (s : State δ κ) : Result δ κ :=
  match form with
  | Res.err _ => abort StatusBadRequest s.db s.ipfs []
  | Res.ok files =>
    match storeLoop n files s.ipfs [] with
    | (some _, k1, tr) => abort StatusBadRequest s.db k1 tr
    | (none, k1, tr) =>
        { reply := Reply.status StatusNoContent, db := s.db, ipfs := k1, trace := tr }

/-- The names of the parts opened in a trace, in order. -/
def openedNames : List Event → List String
  | [] => []
  | Event.openFile name _ :: es => name :: openedNames es
  | _ :: es => openedNames es

/-- The contents given to the structured pin in a trace, in order. -/
def objectPins : List Event → List Bytes
  | [] => []
  | Event.addObject data _ _ :: es => data :: objectPins es
  | _ :: es => objectPins es

/-- The contents whose structured pin failed in a trace, in order. -/
def failedObjectPins : List Event → List Bytes
  | [] => []
  | Event.addObject data _ (Res.err _) :: es => data :: failedObjectPins es
  | _ :: es => failedObjectPins es

/-- The contents given to the raw pin in a trace, in order. -/
def rawPins : List Event → List Bytes
  | [] => []
  | Event.addData data _ _ _ :: es => data :: rawPins es
  | _ :: es => rawPins es

/-- The calls of a trace that make Store give up: a part that cannot be
opened, a raw pin that fails. -/
def uploadFailures : List Event → List Event
  | [] => []
  | Event.openFile name (some e) :: es => Event.openFile name (some e) :: uploadFailures es
  | Event.addData d p h (Res.err e) :: es => Event.addData d p h (Res.err e) :: uploadFailures es
  | _ :: es => uploadFailures es

/-- The contents of the parts of a form that can be opened, in order. -/
def partContents : List FileHeader → List Bytes
  | [] => []
  | file :: files =>
    match file.opened with
    | Res.ok data => data :: partContents files
    | Res.err _ => partContents files

/-! ## The mailbox store -/

/-- Modelled from the spec: the client registry and the mailbox store (the
repository datastore, not under src) as the keyed collections of the data
model: registered clients, thread snapshots and inbox entries. -/
structure Datastore where
  clients : List CafeClient
  threads : List CafeClientThread
  messages : List CafeClientMessage
  deriving DecidableEq, Repr

/-- Modelled from the spec: `CafeClients().Get` returns the registered client
with the given id, or nothing. -/
def Datastore.getClient (d : Datastore) (id : String) : Option CafeClient :=
  d.clients.find? (fun c => c.id = id)

/-- Modelled from the spec: `CafeClientThreads().AddOrUpdate` is an upsert
keyed by `(id, client)`: the record replaces any record with the same key. -/
def Datastore.upsertThread (d : Datastore) (r : CafeClientThread) : Datastore :=
  { d with threads := d.threads.filter (fun t => ¬ (t.id = r.id ∧ t.client = r.client)) ++ [r] }

/-- Modelled from the spec: `CafeClientThreads().Delete` removes the record
keyed by `(id, client)` if present; an absent key is not an error. -/
def Datastore.deleteThread (d : Datastore) (id client : String) : Datastore :=
  { d with threads := d.threads.filter (fun t => ¬ (t.id = id ∧ t.client = client)) }

/-- Modelled from the spec: `CafeClientMessages().AddOrUpdate` is an upsert of
one inbox entry per envelope id in the recipient's mailbox. -/
def Datastore.upsertMessage (d : Datastore) (r : CafeClientMessage) : Datastore :=
  { d with messages := d.messages.filter (fun m => ¬ (m.id = r.id ∧ m.client = r.client)) ++ [r] }

/-- A node whose datastore is the mailbox store above; the content store and
the codecs are those of `n`. -/
def withDatastore (n : Node δ κ) : Node Datastore κ where
  cafeClientsGet := fun d id => d.getClient id
  threadsAddOrUpdate := fun d r => (none, d.upsertThread r)
  threadsDelete := fun d id client => (none, d.deleteThread id client)
  messagesAddOrUpdate := fun d r => (none, d.upsertMessage r)
  addObject := n.addObject
  cidOfData := n.cidOfData
  addDataStore := n.addDataStore
  nodeAtCid := n.nodeAtCid
  extractNode := n.extractNode
  checkIfPinned := n.checkIfPinned
  unpinCid := n.unpinCid
  cidDecode := n.cidDecode
  unmarshalEnvelope := n.unmarshalEnvelope
  unmarshalAny := n.unmarshalAny
  marshalEnvelope := n.marshalEnvelope
  peerDecode := n.peerDecode
  notifyClient := n.notifyClient

/-- Thread snapshots stored under the key `(id, client)`. -/
def Datastore.threadsAt (d : Datastore) (id client : String) : List CafeClientThread :=
  d.threads.filter (fun t => t.id = id ∧ t.client = client)

/-- Inbox entries stored under the key `(id, client)`. -/
def Datastore.messagesAt (d : Datastore) (id client : String) : List CafeClientMessage :=
  d.messages.filter (fun m => m.id = id ∧ m.client = client)

/-- The keys of the unpin calls in a trace, in order. -/
def unpinCalls : List Event → List Cid
  | [] => []
  | Event.unpinCid key _ _ :: es => key :: unpinCalls es
  | _ :: es => unpinCalls es

/-- The keys of the unpin calls of a trace that returned an error, in order. -/
def failedUnpins : List Event → List Cid
  | [] => []
  | Event.unpinCid key _ (some _) :: es => key :: failedUnpins es
  | _ :: es => failedUnpins es

/-- The calls of a trace that pin content (structured or raw). -/
def pinCalls (tr : List Event) : List Event :=
  tr.filter (fun e => match e with
    | Event.addObject _ _ _ => true
    | Event.addData _ _ _ _ => true
    | _ => false)

/-- The inbox records upserted in a trace, in order. -/
def messageUpserts : List Event → List CafeClientMessage
  | [] => []
  | Event.messagesAddOrUpdate r _ :: es => r :: messageUpserts es
  | _ :: es => messageUpserts es

/-- The keys of the pin records whose mode is not `NotPinned`, in order. -/
def pinnedKeys (pinned : List Pinned) : List Cid :=
  (pinned.filter (fun p => p.mode ≠ PinMode.notPinned)).map (fun p => p.key)


/-- The inbox record that a delivery of `g` at time `now` to `client` writes. -/
def inboxRecord (n : Node δ κ) (now : Timestamp) (frm : String) (body : Bytes)
    (client : CafeClient) : CafeClientMessage :=
  { id := (n.cidOfData body).hash, peer := frm, client := client.id, date := now }

/-- What a successful delivery leaves in its result: one inbox upsert, of the
record `r`, accepted by the store, after the raw pin of the whole body. -/
def Delivered (n : Node δ κ) (body : Bytes) (r : CafeClientMessage) (db : δ)
    (res : Result δ κ) : Prop :=
  messageUpserts res.trace = [r] ∧
  Event.addData body true false (Res.ok (n.cidOfData body)) ∈ res.trace ∧
  Event.messagesAddOrUpdate r none ∈ res.trace ∧
  n.messagesAddOrUpdate db r = (none, res.db)

/-- The calls of a trace to the content store that returned an error: a
structured pin, a resolution, an extraction or a raw pin. -/
def contentFailures : List Event → List Event
  | [] => []
  | Event.addObject d p (Res.err e) :: es => Event.addObject d p (Res.err e) :: contentFailures es
  | Event.addData d p h (Res.err e) :: es => Event.addData d p h (Res.err e) :: contentFailures es
  | Event.nodeAtCid c (Res.err e) :: es => Event.nodeAtCid c (Res.err e) :: contentFailures es
  | Event.extractNode nd f (some e) :: es => Event.extractNode nd f (some e) :: contentFailures es
  | _ :: es => contentFailures es

/-- The calls of a trace to the mailbox store that returned an error. -/
def storeFailures : List Event → List Event
  | [] => []
  | Event.threadsAddOrUpdate r (some e) :: es =>
      Event.threadsAddOrUpdate r (some e) :: storeFailures es
  | Event.threadsDelete i c (some e) :: es => Event.threadsDelete i c (some e) :: storeFailures es
  | Event.messagesAddOrUpdate r (some e) :: es =>
      Event.messagesAddOrUpdate r (some e) :: storeFailures es
  | _ :: es => storeFailures es

/-- The client ids of the notification goroutines started in a trace. -/
def notifications : List Event → List String
  | [] => []
  | Event.notifyClient id _ :: es => id :: notifications es
  | _ :: es => notifications es

/-- The content steps of a delivery when all of them succeed, in the order of
the source: structured pin of the node, resolution of the pinned node, raw pin
of the carried block if there is one, extraction (told to fetch the leaf only
when no block was carried), raw pin of the whole envelope. -/
def contentSteps (n : Node δ κ) (body : Bytes) (tenv : ThreadEnvelope) (oid : Cid)
    (node : IpldNode) : List Event :=
  [Event.addObject tenv.node true (Res.ok oid), Event.nodeAtCid oid (Res.ok node)] ++
  (match tenv.block with
    | some block => [Event.addData block true false (Res.ok (n.cidOfData block))]
    | none => []) ++
  [Event.extractNode node tenv.block.isNone none,
   Event.addData body true false (Res.ok (n.cidOfData body))]

/-- Outcome of a delivery in which a content step failed: 400, no inbox
upsert, no notification, mailbox store unchanged. -/
def ContentFailed (db : δ) (res : Result δ κ) : Prop :=
  res.reply = Reply.status 400 ∧ contentFailures res.trace ≠ [] ∧
  messageUpserts res.trace = [] ∧ notifications res.trace = [] ∧
  storeFailures res.trace = [] ∧ res.db = db

/-- Outcome of a delivery that reached the inbox upsert of `r` after the calls
`pre`: either the store refused it (500, no notification) or it accepted it
(200, one notification goroutine). -/
def Recorded (n : Node δ κ) (db : δ) (r : CafeClientMessage) (pre : List Event)
    (res : Result δ κ) : Prop :=
  (∃ e, n.messagesAddOrUpdate db r = (some e, res.db) ∧
    res.reply = Reply.status 500 ∧ res.trace = pre ++ [Event.messagesAddOrUpdate r (some e)]) ∨
  (n.messagesAddOrUpdate db r = (none, res.db) ∧
    res.reply = Reply.status 200 ∧
    res.trace = pre ++ [Event.messagesAddOrUpdate r none,
      Event.notifyClient r.client (n.notifyClient r.client)])

/-- Two results agree on what the caller and the stores observe: the reply,
the mailbox store and the content store. -/
def SameOutcome (a b : Result δ κ) : Prop :=
  a.reply = b.reply ∧ a.db = b.db ∧ a.ipfs = b.ipfs

/-! ## A concrete node, for evaluating the handlers -/

/-- Content store of the example node: its table of pin records. -/
abbrev PinTable := List Pinned

/-- Content id of raw bytes in the example node: the parities of the bytes. -/
def exampleCid (data : Bytes) : Cid :=
  { codec := 85, hash := String.join (data.map (fun b => if b % 2 = 0 then "e" else "o")) }

/-- An envelope whose message carries a payload of the given type. -/
def exampleEnvelope (type : Nat) (typeUrl : String) (value : Bytes) : Envelope :=
  { message := some { type := type, payload := some { typeUrl := typeUrl, value := value } },
    sig := value }

/-- Collaborators of the example node other than the datastore.  The content
store answers a pin-status lookup with its pin table, refuses to unpin the key
whose hash is "locked", and rejects an empty object; the notification of
"alice" fails (she has no open connection); the envelope decoder reads
the empty body as an envelope without message, a body starting with 10 as an
envelope whose payload is a thread envelope (one starting with 10, 18 carries a
block), a body starting with 18 as an envelope whose payload has another type,
and rejects every other body. -/
def exampleBase : Node Unit PinTable where
  cafeClientsGet := fun _ _ => none
  threadsAddOrUpdate := fun d _ => (none, d)
  threadsDelete := fun d _ _ => (none, d)
  messagesAddOrUpdate := fun d _ => (none, d)
  addObject := fun k data _ =>
    match data with
    | [] => (Res.err "empty object", k)
    | _ :: _ => (Res.ok { codec := 113, hash := "node" },
        { key := { codec := 113, hash := "node" }, mode := PinMode.recursive } :: k)
  cidOfData := exampleCid
  addDataStore := fun k data _ _ =>
    (none, { key := exampleCid data, mode := PinMode.recursive } :: k)
  nodeAtCid := fun k id => (Res.ok { cid := id, links := [] }, k)
  extractNode := fun k _ _ => (none, k)
  checkIfPinned := fun k _ => Res.ok k
  unpinCid := fun k key _ =>
    if key.hash = "locked" then (some "unpin failed", k)
    else (none, k.filter (fun p => p.key ≠ key))
  cidDecode := fun str => if str = "" then Res.err "invalid cid" else Res.ok { codec := 85, hash := str }
  unmarshalEnvelope := fun body =>
    match body with
    | [] => Res.ok { message := none, sig := [] }
    | 10 :: rest => Res.ok (exampleEnvelope 1 "/ThreadEnvelope" rest)
    | 18 :: rest => Res.ok (exampleEnvelope 2 "/Other" rest)
    | _ :: _ => Res.err "proto: cannot parse"
  unmarshalAny := fun a =>
    match a with
    | none => Res.err "message is nil"
    | some a =>
      if a.typeUrl = "/ThreadEnvelope" then
        match a.value with
        | 10 :: 18 :: rest => Res.ok { thread := "t", node := [10], block := some rest }
        | value => Res.ok { thread := "t", node := value, block := none }
      else Res.err "mismatched message type"
  marshalEnvelope := fun e => Res.ok e.sig
  peerDecode := fun str => if str = "" then Res.err "invalid peer id" else Res.ok str
  notifyClient := fun id => if id = "alice" then some "no open connection" else none

/-- The example node: the collaborators above with the mailbox store. -/
def exampleNode : Node Datastore PinTable := withDatastore exampleBase

def alice : CafeClient := { id := "alice", address := "P8wLiCgy" }

/-- A mailbox store with one registered client and nothing stored. -/
def exampleDb : Datastore := { clients := [alice], threads := [], messages := [] }

/-- A request context with the given sender key, route parameters `id`, `from`,
`to`, `cid` and body, read without error. -/
def exampleCtx (sender id frm rcpt cid : String) (body : Bytes) : Context :=
  { keys := fun key => if key = "from" then sender else "",
    params := fun key =>
      if key = "id" then id else if key = "from" then frm else if key = "to" then rcpt
      else if key = "cid" then cid else "",
    body := body, readErr := none }

def lockedPin : Pinned := { key := { codec := 85, hash := "locked" }, mode := PinMode.recursive }

def directPin : Pinned := { key := { codec := 85, hash := "photo" }, mode := PinMode.direct }

def stalePin : Pinned := { key := { codec := 85, hash := "stale" }, mode := PinMode.notPinned }

/-- The example node with a failing environment: every write to the mailbox
store is refused, the pin-status lookup fails and no envelope serializes;
the pins of the content store succeed as in the example node. -/
def faultyNode : Node Datastore PinTable :=
  { exampleNode with
    threadsAddOrUpdate := fun d _ => (some "database is locked", d),
    threadsDelete := fun d _ _ => (some "database is locked", d),
    messagesAddOrUpdate := fun d _ => (some "database is locked", d),
    checkIfPinned := fun _ _ => Res.err "pinner unavailable",
    marshalEnvelope := fun _ => Res.err "proto: marshal failed" }

/-- A mailbox store with no registered client. -/
def emptyDb : Datastore := { clients := [], threads := [], messages := [] }

/-! ## The order of the content steps of a delivery -/

/-- A call to the content store, without its outcome: structured pin of some
bytes, resolution of a content id, raw pin of some bytes, extraction with its
`downloadBlock` flag. -/
inductive Step where
  | pinObject (data : Bytes)
  | resolve
  | pinRaw (data : Bytes)
  | extract (downloadBlock : Bool)
  deriving DecidableEq, Repr

/-- The calls to the content store in a trace, in order. -/
def steps : List Event → List Step
  | [] => []
  | Event.addObject data _ _ :: es => Step.pinObject data :: steps es
  | Event.nodeAtCid _ _ :: es => Step.resolve :: steps es
  | Event.addData data _ _ _ :: es => Step.pinRaw data :: steps es
  | Event.extractNode _ flag _ :: es => Step.extract flag :: steps es
  | _ :: es => steps es

/-- The content calls of a delivery that runs to the end, for an envelope that
carries the block `block`. -/
def stepsWithBlock (body : Bytes) (tenv : ThreadEnvelope) (block : Bytes) : List Step :=
  [Step.pinObject tenv.node, Step.resolve, Step.pinRaw block, Step.extract false,
   Step.pinRaw body]

/-- The content calls of a delivery that runs to the end, for an envelope that
carries no block. -/
def stepsWithoutBlock (body : Bytes) (tenv : ThreadEnvelope) : List Step :=
  [Step.pinObject tenv.node, Step.resolve, Step.extract true, Step.pinRaw body]

/-- A result whose content calls are, from the trace `tr` on, an initial part
of `tail`: all of `tail` when no call failed; and when a call failed it is the
last call of the trace, every call before it having succeeded. -/
def StepsUpTo (tr : List Event) (tail : List Step) (res : Result δ κ) : Prop :=
  (∃ rest, steps res.trace ++ rest = steps tr ++ tail) ∧
  (contentFailures res.trace ≠ [] →
    ∃ pre e, res.trace = pre ++ [e] ∧ contentFailures pre = []) ∧
  (contentFailures res.trace = [] → steps res.trace = steps tr ++ tail)

/-! ## The mobile wrapper (`mobile/mobile.go`, `mobile/files.go`) -/

/-- Errors returned by the core node: the sentinels `core.ErrStarted` and
`core.ErrStopped`, compared by identity in the source, and any other error. -/
inductive CoreError where
  | started
  | stopped
  | other (msg : String)
  deriving DecidableEq, Repr

def ErrStarted : CoreError := CoreError.started

def ErrStopped : CoreError := CoreError.stopped

/-- What `Mobile.Start` leaves: the error it returns, and whether it started
the goroutine that subscribes to the node's updates. -/
structure StartResult where
  err : Option CoreError
  subscribed : Bool
  deriving DecidableEq, Repr

/-- Method `Mobile.Start`; `coreStart` is what `core.Node.Start()` returns. -/
def Mobile.Start (coreStart : Option CoreError) : StartResult :=
  match coreStart with
  | some err =>
    if err = ErrStarted then { err := none, subscribed := false }
    else { err := some err, subscribed := false }
  | none => { err := none, subscribed := true }

/-- Method `Mobile.Stop`; `coreStop` is what `core.Node.Stop()` returns. -/
def Mobile.Stop (coreStop : Option CoreError) : Option CoreError :=
  match coreStop with
  | some err => if err ≠ ErrStopped then some err else none
  | none => none

/-- A Go `map[string]string`. -/
abbrev StrMap := String → Option String

/-- The empty map, `make(map[string]string)`. -/
def StrMap.empty : StrMap := fun _ => none

/-- Assignment `m[key] = value`. -/
def StrMap.set (m : StrMap) (key value : String) : StrMap :=
  fun k => if k = key then some value else m k

/-- Index expression `m[key]`: the empty string when the key is absent. -/
def StrMap.index (m : StrMap) (key : String) : String := (m key).getD ""

/-- The mills of package `mill` that `getMill` builds. -/
inductive Mill where
  | Blob
  | ImageResize (Width Quality : String)
  | ImageExif
  deriving DecidableEq, Repr

/-- Function `getMill` of `mobile/files.go`: the mill, or nil, and the error. -/
def getMill (id : String) (opts : StrMap) : Option Mill × Option Error :=
  if id = "/blob" then (some Mill.Blob, none)
  else if id = "/image/resize" then
    let width := opts.index "width"
    if width = "" then (none, some "missing width")
    else
      let quality := opts.index "quality"
      let quality := if quality = "" then "75" else quality
      (some (Mill.ImageResize width quality), none)
  else if id = "/image/exif" then (some Mill.ImageExif, none)
  else (none, none)

/-! ## Request options (`core/api.go`) -/

/-- Function `strings.Split(s, sep)` for a separator of one character. -/
def splitOn (sep : Char) : List Char → List (List Char)
  | [] => [[]]
  | c :: cs =>
    if c = sep then [] :: splitOn sep cs
    else
      match splitOn sep cs with
      | [] => [[c]]
      | part :: parts => (c :: part) :: parts

/-- White space as defined by `unicode.IsSpace`. -/
def isSpace (c : Char) : Bool :=
  c = '\t' || c = '\n' || c.val = 11 || c.val = 12 || c = '\r' || c = ' ' ||
  c.val = 0x85 || c.val = 0xA0 || c.val = 0x1680 || (0x2000 ≤ c.val && c.val ≤ 0x200A) ||
  c.val = 0x2028 || c.val = 0x2029 || c.val = 0x202F || c.val = 0x205F || c.val = 0x3000

/-- Function `strings.TrimSpace`. -/
def trimSpace (s : List Char) : List Char :=
  ((s.dropWhile isSpace).reverse.dropWhile isSpace).reverse

/-- The loop of `api.readOpts` over the comma-separated segments of the header. -/
def readOptsLoop : List (List Char) → StrMap → StrMap
  | [], opts => opts
  | o :: os, opts =>
    let opt := trimSpace o
    if opt ≠ [] then
      match splitOn '=' opt with
      | [key, value] => readOptsLoop os (opts.set (String.mk key) (String.mk value))
      | _ => readOptsLoop os opts
    else readOptsLoop os opts

/-- Method `api.readOpts`; `header` is the value of the `X-Textile-Opts` header. -/
def readOpts (header : String) : StrMap × Option Error :=
  (readOptsLoop (splitOn ',' header.toList) StrMap.empty, none)

/-- The key and value of a segment, as the specification words them: the text
before its "=" and the text after it. -/
def keyValue (seg : List Char) : String × String :=
  (String.mk (seg.takeWhile (fun c => c ≠ '=')),
   String.mk ((seg.dropWhile (fun c => c ≠ '=')).drop 1))

/-- The code points of white space (the Unicode property White_Space), listed
one by one. -/
def whiteSpaceCodes : List Nat :=
  [9, 10, 11, 12, 13, 32, 133, 160, 5760, 8192, 8193, 8194, 8195, 8196, 8197, 8198, 8199,
   8200, 8201, 8202, 8232, 8233, 8239, 8287, 12288]

/-- A segment without its leading white space, as the specification words
trimming; written without reference to `trimSpace` or `isSpace`. -/
def withoutLeadingSpace : List Char → List Char
  | [] => []
  | c :: cs => if c.toNat ∈ whiteSpaceCodes then withoutLeadingSpace cs else c :: cs

/-- A segment without its trailing white space, as the specification words
trimming; written without reference to `trimSpace` or `isSpace`. -/
def withoutTrailingSpace : List Char → List Char
  | [] => []
  | c :: cs =>
    match withoutTrailingSpace cs with
    | [] => if c.toNat ∈ whiteSpaceCodes then [] else [c]
    | d :: ds => c :: d :: ds

/-- A segment trimmed, as the specification words it: without its leading and
without its trailing white space. -/
def trimmed (seg : List Char) : List Char := withoutTrailingSpace (withoutLeadingSpace seg)

/-- The segments the specification keeps: the header split at commas, each
segment trimmed, the non-empty ones with exactly one "=". -/
def keptSegments (header : String) : List (List Char) :=
  ((splitOn ',' header.toList).map trimmed).filter
    (fun seg => seg ≠ [] ∧ seg.count '=' = 1)

/-- The value the specification gives to a key: that of the last kept segment
with this key, if there is one. -/
def optsOf (header : String) (key : String) : Option String :=
  (((keptSegments header).map keyValue).reverse.find? (fun kv => kv.1 = key)).map
    (fun kv => kv.2)

/-- A serialized result of 65536 bytes, one more than a 2-byte length holds. -/
def oversizedPayload : Bytes := List.replicate 65536 7

/-- A result of the query handler that carries a message and serializes, on
the example node, to `oversizedPayload`. -/
def oversizedResult : Envelope :=
  { message := some { type := 1, payload := none }, sig := oversizedPayload }

/-- A result of the query handler whose `Message` is nil; on the example node
it serializes to `[1, 2, 3]`. -/
def bareResult : Envelope := { message := none, sig := [1, 2, 3] }

/-- A result of the query handler whose `Message` is nil and that serializes,
on the example node, to `oversizedPayload`. -/
def oversizedBareResult : Envelope := { message := none, sig := oversizedPayload }

/-! ## Theorems: client validation and early exits -/

/-- C8: when the authenticated sender has no CafeClient record, StoreThread and
UnstoreThread each respond 403 and issue no call to the mailbox store, which
is left unchanged. -/
theorem forbidden_without_client (n : Node δ κ) (g : Context) (s : State δ κ)
    (h : n.cafeClientsGet s.db (g.getString "from") = none) :
    ((storeThread n g s).reply = Reply.status 403 ∧ (storeThread n g s).trace = [] ∧
      (storeThread n g s).db = s.db ∧ (storeThread n g s).ipfs = s.ipfs) ∧
    ((unstoreThread n g s).reply = Reply.status 403 ∧ (unstoreThread n g s).trace = [] ∧
      (unstoreThread n g s).db = s.db ∧ (unstoreThread n g s).ipfs = s.ipfs) := by
  simp [storeThread, unstoreThread, h, abort, StatusForbidden]

/-- C2: for a recipient id with no CafeClient record, DeliverMessage responds
200, issues no call at all (no inbox upsert, no structured pin, no raw pin),
and leaves the mailbox store and the content store unchanged. -/
theorem deliver_unknown_recipient (n : Node δ κ) (now : Timestamp) (g : Context)
    (s : State δ κ) (h : n.cafeClientsGet s.db (g.param "to") = none) :
    (deliverMessage n now g s).reply = Reply.status 200 ∧
    (deliverMessage n now g s).trace = [] ∧
    messageUpserts (deliverMessage n now g s).trace = [] ∧
    pinCalls (deliverMessage n now g s).trace = [] ∧
    (deliverMessage n now g s).db = s.db ∧ (deliverMessage n now g s).ipfs = s.ipfs := by
  simp [deliverMessage, h, StatusOK, messageUpserts, pinCalls]

/-- C3: for a registered recipient and a body that does not decode as an
Envelope, DeliverMessage responds 400, issues no call (nothing is pinned) and
leaves the mailbox store and the content store unchanged. -/
theorem deliver_undecodable_body (n : Node δ κ) (now : Timestamp) (g : Context)
    (s : State δ κ) (client : CafeClient) (e : Error)
    (hreg : n.cafeClientsGet s.db (g.param "to") = some client)
    (hbad : n.unmarshalEnvelope g.body = Res.err e) :
    (deliverMessage n now g s).reply = Reply.status 400 ∧
    (deliverMessage n now g s).trace = [] ∧
    pinCalls (deliverMessage n now g s).trace = [] ∧
    (deliverMessage n now g s).db = s.db ∧ (deliverMessage n now g s).ipfs = s.ipfs := by
  unfold deliverMessage
  simp only [hreg, hbad]
  split <;> simp [abort, StatusBadRequest, pinCalls]


/-! ## Theorems: thread snapshots in the mailbox store -/

theorem threadsAt_upsertThread (d : Datastore) (r : CafeClientThread) :
    (d.upsertThread r).threadsAt r.id r.client = [r] := by
  simp [Datastore.upsertThread, Datastore.threadsAt, List.filter_append, List.filter_filter]

theorem getClient_upsertThread (d : Datastore) (r : CafeClientThread) (id : String) :
    (d.upsertThread r).getClient id = d.getClient id := rfl

theorem deleteThread_of_absent (d : Datastore) (id client : String)
    (h : d.threadsAt id client = []) : d.deleteThread id client = d := by
  have hf : d.threads.filter (fun t => ¬ (t.id = id ∧ t.client = client)) = d.threads := by
    rw [List.filter_eq_self]
    intro t ht
    have hno : t ∉ d.threadsAt id client := by simp [h]
    simp only [Datastore.threadsAt, List.mem_filter, ht, true_and, decide_eq_true_eq] at hno
    simpa using not_and_or.mp hno
  cases d
  simp only [Datastore.deleteThread] at hf ⊢
  rw [hf]

/-- C1: for a registered client, StoreThread with body `b1` followed by
StoreThread with body `b2` for the same client and thread id responds 204 both
times and leaves exactly one CafeClientThread under the key, with the thread
id, the client's id, and ciphertext `b2`. -/
theorem storeThread_twice (n : Node δ κ) (g : Context) (b1 b2 : Bytes) (d : Datastore)
    (k : κ) (client : CafeClient)
    (hreg : d.getClient (g.getString "from") = some client) :
    (storeThread (withDatastore n) { g with body := b1, readErr := none } ⟨d, k⟩).reply
      = Reply.status 204 ∧
    (storeThread (withDatastore n) { g with body := b2, readErr := none }
      ⟨(storeThread (withDatastore n) { g with body := b1, readErr := none } ⟨d, k⟩).db,
       (storeThread (withDatastore n) { g with body := b1, readErr := none } ⟨d, k⟩).ipfs⟩).reply
      = Reply.status 204 ∧
    (storeThread (withDatastore n) { g with body := b2, readErr := none }
      ⟨(storeThread (withDatastore n) { g with body := b1, readErr := none } ⟨d, k⟩).db,
       (storeThread (withDatastore n) { g with body := b1, readErr := none } ⟨d, k⟩).ipfs⟩).db.threadsAt
        (g.param "id") client.id
      = [{ id := g.param "id", client := client.id, ciphertext := b2 }] := by
  have h1 : storeThread (withDatastore n) { g with body := b1, readErr := none } ⟨d, k⟩
      = { reply := Reply.status 204,
          db := d.upsertThread { id := g.param "id", client := client.id, ciphertext := b1 },
          ipfs := k,
          trace := [Event.threadsAddOrUpdate
            { id := g.param "id", client := client.id, ciphertext := b1 } none] } := by
    have hreg1 : Datastore.getClient d (Context.getString
        { keys := g.keys, params := g.params, body := b1, readErr := none } "from")
        = some client := hreg
    simp [storeThread, withDatastore, hreg1, readFailed, StatusNoContent, Context.param]
  rw [h1]
  have hreg2 : Datastore.getClient
      (d.upsertThread { id := g.param "id", client := client.id, ciphertext := b1 })
      (Context.getString { keys := g.keys, params := g.params, body := b2, readErr := none } "from")
      = some client := hreg
  refine ⟨rfl, ?_, ?_⟩
  · simp [storeThread, withDatastore, hreg2, readFailed, StatusNoContent]
  · simp only [storeThread, withDatastore, hreg2, readFailed]
    exact threadsAt_upsertThread _ { id := g.param "id", client := client.id, ciphertext := b2 }

/-- C7: for a registered client and a thread id with no CafeClientThread under
`(threadId, client.id)`, UnstoreThread responds 204 and the store still holds
no record under the key (it is unchanged); applying UnstoreThread again gives
the same reply and the same store. -/
theorem unstoreThread_absent (n : Node δ κ) (g : Context) (d : Datastore) (k : κ)
    (client : CafeClient)
    (hreg : d.getClient (g.getString "from") = some client)
    (habs : d.threadsAt (g.param "id") client.id = []) :
    (unstoreThread (withDatastore n) g ⟨d, k⟩).reply = Reply.status 204 ∧
    (unstoreThread (withDatastore n) g ⟨d, k⟩).db.threadsAt (g.param "id") client.id = [] ∧
    (unstoreThread (withDatastore n) g ⟨d, k⟩).db = d ∧
    (unstoreThread (withDatastore n) g
      ⟨(unstoreThread (withDatastore n) g ⟨d, k⟩).db,
       (unstoreThread (withDatastore n) g ⟨d, k⟩).ipfs⟩).reply
      = (unstoreThread (withDatastore n) g ⟨d, k⟩).reply ∧
    (unstoreThread (withDatastore n) g
      ⟨(unstoreThread (withDatastore n) g ⟨d, k⟩).db,
       (unstoreThread (withDatastore n) g ⟨d, k⟩).ipfs⟩).db
      = (unstoreThread (withDatastore n) g ⟨d, k⟩).db := by
  have h1 : unstoreThread (withDatastore n) g ⟨d, k⟩
      = { reply := Reply.status 204, db := d, ipfs := k,
          trace := [Event.threadsDelete (g.param "id") client.id none] } := by
    simp [unstoreThread, withDatastore, hreg, StatusNoContent, deleteThread_of_absent d _ _ habs]
  rw [h1]
  simp only [h1, habs, and_self]


/-! ## Theorems: message delivery -/

theorem messageUpserts_append (a b : List Event) :
    messageUpserts (a ++ b) = messageUpserts a ++ messageUpserts b := by
  induction a with
  | nil => rfl
  | cons e es ih => cases e <;> simp [messageUpserts, ih]

theorem deliverRecord_ok (n : Node δ κ) (frm : String) (client : CafeClient) (now : Timestamp)
    (body : Bytes) (db : δ) (k : κ) (tr : List Event)
    (htr : messageUpserts tr = [])
    (hpin : Event.addData body true false (Res.ok (n.cidOfData body)) ∈ tr)
    (h : (deliverRecord n frm client now (n.cidOfData body) db k tr).reply = Reply.status 200) :
    Delivered n body (inboxRecord n now frm body client) db
      (deliverRecord n frm client now (n.cidOfData body) db k tr) := by
  revert h
  unfold deliverRecord Delivered inboxRecord
  simp only []
  split
  · simp [abort, StatusInternalServerError]
  · rename_i db1 heq
    intro _
    simp [messageUpserts_append, htr, messageUpserts, hpin, heq]

theorem deliverEnvelope_ok (n : Node δ κ) (frm : String) (client : CafeClient) (now : Timestamp)
    (body : Bytes) (db : δ) (k : κ) (tr : List Event)
    (htr : messageUpserts tr = [])
    (h : (deliverEnvelope n frm client now body db k tr).reply = Reply.status 200) :
    Delivered n body (inboxRecord n now frm body client) db
      (deliverEnvelope n frm client now body db k tr) := by
  revert h
  unfold deliverEnvelope AddData
  split
  · simp [abort, StatusBadRequest]
  · rename_i id k1 heq
    split at heq
    · simp at heq
    · simp only [Prod.mk.injEq, Res.ok.injEq] at heq
      obtain ⟨hid, _⟩ := heq
      subst hid
      intro h
      exact deliverRecord_ok n frm client now body db k1 _
        (by simp [messageUpserts_append, htr, messageUpserts]) (by simp) h

theorem deliverExtract_ok (n : Node δ κ) (frm : String) (client : CafeClient) (now : Timestamp)
    (body : Bytes) (tenv : ThreadEnvelope) (node : IpldNode) (db : δ) (k : κ) (tr : List Event)
    (htr : messageUpserts tr = [])
    (h : (deliverExtract n frm client now body tenv node db k tr).reply = Reply.status 200) :
    Delivered n body (inboxRecord n now frm body client) db
      (deliverExtract n frm client now body tenv node db k tr) := by
  revert h
  unfold deliverExtract
  simp only []
  split
  · simp [abort, StatusBadRequest]
  · intro h
    exact deliverEnvelope_ok n frm client now body db _ _
      (by simp [messageUpserts_append, htr, messageUpserts]) h

theorem deliverPins_ok (n : Node δ κ) (frm : String) (client : CafeClient) (now : Timestamp)
    (body : Bytes) (tenv : ThreadEnvelope) (s : State δ κ)
    (h : (deliverPins n frm client now body tenv s).reply = Reply.status 200) :
    Delivered n body (inboxRecord n now frm body client) s.db
      (deliverPins n frm client now body tenv s) := by
  revert h
  unfold deliverPins
  simp only []
  split
  · simp [abort, StatusBadRequest]
  · split
    · simp [abort, StatusBadRequest]
    · split
      · split
        · simp [abort, StatusBadRequest]
        · intro h
          exact deliverExtract_ok n frm client now body tenv _ s.db _ _
            (by simp [messageUpserts_append, messageUpserts]) h
      · intro h
        exact deliverExtract_ok n frm client now body tenv _ s.db _ _
          (by simp [messageUpserts_append, messageUpserts]) h

theorem deliverMessage_ok (n : Node δ κ) (now : Timestamp) (g : Context) (s : State δ κ)
    (client : CafeClient)
    (hreg : n.cafeClientsGet s.db (g.param "to") = some client)
    (h : (deliverMessage n now g s).reply = Reply.status 200) :
    Delivered n g.body (inboxRecord n now (g.param "from") g.body client) s.db
      (deliverMessage n now g s) := by
  revert h
  unfold deliverMessage
  simp only [hreg]
  split
  · simp [abort, StatusBadRequest]
  · split
    · simp [abort, StatusBadRequest]
    · split
      · simp
      · split
        · simp [abort, StatusBadRequest]
        · intro h
          exact deliverPins_ok n _ client now g.body _ s h


/-- An Envelope that carries no message: the handler panics before any call. -/
theorem deliver_no_message (n : Node δ κ) (now : Timestamp) (g : Context) (s : State δ κ)
    (client : CafeClient) (nenv : Envelope)
    (hreg : n.cafeClientsGet s.db (g.param "to") = some client)
    (hread : readFailed g = false)
    (henv : n.unmarshalEnvelope g.body = Res.ok nenv)
    (hmsg : nenv.message = none) :
    (deliverMessage n now g s).reply = Reply.panic ∧ (deliverMessage n now g s).trace = [] := by
  unfold deliverMessage
  simp [hreg, hread, henv, hmsg]

/-- A message whose payload is absent, of another type or malformed: the
handler responds 400 before any call. -/
theorem deliver_bad_payload (n : Node δ κ) (now : Timestamp) (g : Context) (s : State δ κ)
    (client : CafeClient) (nenv : Envelope) (m : Message) (e : Error)
    (hreg : n.cafeClientsGet s.db (g.param "to") = some client)
    (henv : n.unmarshalEnvelope g.body = Res.ok nenv)
    (hmsg : nenv.message = some m)
    (hany : n.unmarshalAny m.payload = Res.err e) :
    (deliverMessage n now g s).reply = Reply.status 400 ∧
    (deliverMessage n now g s).trace = [] ∧
    (deliverMessage n now g s).db = s.db ∧ (deliverMessage n now g s).ipfs = s.ipfs := by
  unfold deliverMessage
  simp only [hreg, henv, hmsg, hany]
  split <;> simp [abort, StatusBadRequest]


/-- C9: a DeliverMessage to a registered recipient that responds 200 upserts
exactly one CafeClientMessage; its id is the content id returned by the raw
pin of the whole request body, its peer the sender of the request, its client
the id of the recipient's record, and its date the time of the call. -/
theorem deliver_success_record (n : Node δ κ) (now : Timestamp) (g : Context)
    (s : State δ κ) (client : CafeClient)
    (hreg : n.cafeClientsGet s.db (g.param "to") = some client)
    (h : (deliverMessage n now g s).reply = Reply.status 200) :
    (∃ id : Cid,
      Event.addData g.body true false (Res.ok id) ∈ (deliverMessage n now g s).trace ∧
      messageUpserts (deliverMessage n now g s).trace
        = [{ id := id.hash, peer := g.param "from", client := client.id, date := now }] ∧
      Event.messagesAddOrUpdate
        { id := id.hash, peer := g.param "from", client := client.id, date := now } none
        ∈ (deliverMessage n now g s).trace) := by
  obtain ⟨h1, h2, h3, _⟩ := deliverMessage_ok n now g s client hreg h
  exact ⟨n.cidOfData g.body, h2, h1, h3⟩

theorem messagesAt_upsertMessage (d : Datastore) (r : CafeClientMessage) :
    (d.upsertMessage r).messagesAt r.id r.client = [r] := by
  simp [Datastore.upsertMessage, Datastore.messagesAt, List.filter_append, List.filter_filter]

/-- C4: when the same envelope body is delivered twice to the same registered
recipient and both deliveries respond 200, both upsert a record with the same
id, the content id of the body bytes, and after the second delivery the
mailbox holds exactly one CafeClientMessage under that id for the recipient,
dated with the time of the second delivery. -/
theorem deliver_twice_dedup (n : Node δ κ) (now1 now2 : Timestamp) (g : Context)
    (d : Datastore) (k : κ) (client : CafeClient)
    (hreg : d.getClient (g.param "to") = some client)
    (h1 : (deliverMessage (withDatastore n) now1 g ⟨d, k⟩).reply = Reply.status 200)
    (h2 : (deliverMessage (withDatastore n) now2 g
      ⟨(deliverMessage (withDatastore n) now1 g ⟨d, k⟩).db,
       (deliverMessage (withDatastore n) now1 g ⟨d, k⟩).ipfs⟩).reply = Reply.status 200) :
    (messageUpserts (deliverMessage (withDatastore n) now1 g ⟨d, k⟩).trace).map (fun m => m.id)
      = [(n.cidOfData g.body).hash] ∧
    (messageUpserts (deliverMessage (withDatastore n) now2 g
      ⟨(deliverMessage (withDatastore n) now1 g ⟨d, k⟩).db,
       (deliverMessage (withDatastore n) now1 g ⟨d, k⟩).ipfs⟩).trace).map (fun m => m.id)
      = [(n.cidOfData g.body).hash] ∧
    (deliverMessage (withDatastore n) now2 g
      ⟨(deliverMessage (withDatastore n) now1 g ⟨d, k⟩).db,
       (deliverMessage (withDatastore n) now1 g ⟨d, k⟩).ipfs⟩).db.messagesAt
        (n.cidOfData g.body).hash client.id
      = [{ id := (n.cidOfData g.body).hash, peer := g.param "from", client := client.id,
           date := now2 }] := by
  obtain ⟨a1, _, _, a4⟩ := deliverMessage_ok (withDatastore n) now1 g ⟨d, k⟩ client hreg h1
  have hdb1 : (deliverMessage (withDatastore n) now1 g ⟨d, k⟩).db
      = d.upsertMessage (inboxRecord (withDatastore n) now1 (g.param "from") g.body client) :=
    (congrArg Prod.snd a4).symm
  have hreg2 : (withDatastore n).cafeClientsGet
      (deliverMessage (withDatastore n) now1 g ⟨d, k⟩).db (g.param "to") = some client := by
    rw [hdb1]
    exact hreg
  obtain ⟨b1, _, _, b4⟩ := deliverMessage_ok (withDatastore n) now2 g _ client hreg2 h2
  have hdb2 : (deliverMessage (withDatastore n) now2 g
      ⟨(deliverMessage (withDatastore n) now1 g ⟨d, k⟩).db,
       (deliverMessage (withDatastore n) now1 g ⟨d, k⟩).ipfs⟩).db
      = (deliverMessage (withDatastore n) now1 g ⟨d, k⟩).db.upsertMessage
          (inboxRecord (withDatastore n) now2 (g.param "from") g.body client) :=
    (congrArg Prod.snd b4).symm
  refine ⟨?_, ?_, ?_⟩
  · rw [a1]; rfl
  · rw [b1]; rfl
  · rw [hdb2]
    exact messagesAt_upsertMessage _
      (inboxRecord (withDatastore n) now2 (g.param "from") g.body client)


/-! ## Theorems: framing of the Search response -/

theorem uint16_header (v : Nat) (h : v ≤ 65535) :
    uint16 v % 256 + 256 * (uint16 v / 256 % 256) = v := by
  unfold uint16
  omega

theorem readFramesAux_frame (fuel : Nat) (p rest : Bytes) (h : p.length ≤ 65535) :
    readFramesAux (fuel + 1) (frame p ++ rest)
      = match readFramesAux fuel rest with
        | some frames => some (p :: frames)
        | none => none := by
  simp only [frame, putUint16LE, List.cons_append, List.nil_append, readFramesAux,
    uint16_header p.length h]
  simp

theorem readFramesAux_frames (ps : List Bytes) (h : ∀ p ∈ ps, p.length ≤ 65535) :
    ∀ fuel, ps.length ≤ fuel → readFramesAux fuel (ps.map frame).flatten = some ps := by
  induction ps with
  | nil => intro fuel _; cases fuel <;> rfl
  | cons p ps ih =>
    intro fuel hfuel
    cases fuel with
    | zero => simp at hfuel
    | succ fuel =>
      simp only [List.map_cons, List.flatten_cons]
      rw [readFramesAux_frame fuel p _ (h p (List.mem_cons_self p ps))]
      rw [ih (fun q hq => h q (List.mem_cons_of_mem p hq)) fuel (by simpa using hfuel)]

theorem length_le_frames (ps : List Bytes) : ps.length ≤ ((ps.map frame).flatten).length := by
  induction ps with
  | nil => simp
  | cons p ps ih =>
    simp only [List.map_cons, List.flatten_cons, List.length_append, List.length_cons, frame,
      putUint16LE]
    simp only [List.length_cons, List.length_nil]
    omega

theorem readFrames_frames (ps : List Bytes) (h : ∀ p ∈ ps, p.length ≤ 65535) :
    readFrames (ps.map frame).flatten = some ps :=
  readFramesAux_frames ps h _ (length_le_frames ps)

/-- An accepted Search request (the sender id decodes, the body is read and
decodes as an envelope) streams the outcomes of the handler's channels through
the step, from the empty stream. -/
theorem search_accepted (n : Node δ κ) (g : Context) (evs : List Select) (pid : String)
    (pmes : Envelope)
    (hfrom : n.peerDecode (g.getString "from") = Res.ok pid)
    (hread : readFailed g = false)
    (hbody : n.unmarshalEnvelope g.body = Res.ok pmes) :
    search n g evs = streamLoop n evs Stream.init := by
  simp [search, hfrom, hread, hbody]

/-- The step on a result that carries a message and serializes. -/
theorem searchStep_result (n : Node δ κ) (st : Stream) (r : Envelope) (p : Bytes)
    (hmsg : r.message ≠ none) (hp : n.marshalEnvelope r = Res.ok p) :
    searchStep n (Select.msgRecv (some r)) st
      = (true, { st with status := some 200, chunks := st.chunks ++ [frame p] }) := by
  obtain ⟨m, hm⟩ := Option.ne_none_iff_exists'.mp hmsg
  simp [searchStep, hm, hp, StatusOK]

/-- The stream after the handler produced the results `rs`, each carrying a
message, serialized as `ps`, and then closed its results channel. -/
theorem streamLoop_results (n : Node δ κ) (rs : List Envelope) (ps : List Bytes)
    (h : List.Forall₂ (fun r p => r.message ≠ none ∧ n.marshalEnvelope r = Res.ok p) rs ps)
    (st : Stream) :
    streamLoop n (rs.map (fun r => Select.msgRecv (some r)) ++ [Select.msgRecv none]) st
      = { st with status := some 200, chunks := st.chunks ++ ps.map frame } := by
  induction h generalizing st with
  | nil => simp [streamLoop, searchStep, StatusOK]
  | cons hr _ ih =>
    simp only [List.map_cons, List.cons_append, streamLoop, searchStep_result n st _ _ hr.1 hr.2]
    exact (ih _).trans (by simp [List.append_assoc])

/-- The framing round trip, for results that carry a message: when Search
accepts the request and the query handler produces the results `rs`, each
carrying a message and serializing to at most 65535 bytes, and then closes,
reading the bytes written by Search with the inverse framing recovers exactly
the list `ps` of serialized results, in order, with nothing left over. -/
theorem search_frames_roundtrip (n : Node δ κ) (g : Context) (pid : String) (pmes : Envelope)
    (rs : List Envelope) (ps : List Bytes)
    (hfrom : n.peerDecode (g.getString "from") = Res.ok pid)
    (hread : readFailed g = false)
    (hbody : n.unmarshalEnvelope g.body = Res.ok pmes)
    (h : List.Forall₂ (fun r p =>
      r.message ≠ none ∧ n.marshalEnvelope r = Res.ok p ∧ p.length ≤ 65535) rs ps) :
    readFrames (search n g
      (rs.map (fun r => Select.msgRecv (some r)) ++ [Select.msgRecv none])).bytes
      = some ps := by
  have hm : List.Forall₂ (fun r p => r.message ≠ none ∧ n.marshalEnvelope r = Res.ok p) rs ps :=
    h.imp (fun _ _ hrp => ⟨hrp.1, hrp.2.1⟩)
  have hl : ∀ p ∈ ps, p.length ≤ 65535 := by
    clear hm
    induction h with
    | nil => simp
    | cons hrp _ ih =>
      intro p hp
      rcases List.mem_cons.mp hp with rfl | hp
      · exact hrp.2.2
      · exact ih p hp
  rw [search_accepted n g _ pid pmes hfrom hread hbody, streamLoop_results n rs ps hm]
  simpa [Stream.bytes, Stream.init] using readFrames_frames ps hl


/-! ## Theorems: Unstore -/

theorem unpinCalls_append (a b : List Event) :
    unpinCalls (a ++ b) = unpinCalls a ++ unpinCalls b := by
  induction a with
  | nil => rfl
  | cons e es ih => cases e <;> simp [unpinCalls, ih]

theorem failedUnpins_append (a b : List Event) :
    failedUnpins (a ++ b) = failedUnpins a ++ failedUnpins b := by
  induction a with
  | nil => rfl
  | cons e es ih =>
    cases e with
    | unpinCid key r err => cases err <;> simp [failedUnpins, ih]
    | _ => simp [failedUnpins, ih]

theorem pinnedKeys_cons (p : Pinned) (ps : List Pinned) :
    pinnedKeys (p :: ps)
      = if p.mode ≠ PinMode.notPinned then p.key :: pinnedKeys ps else pinnedKeys ps := by
  unfold pinnedKeys
  by_cases h : p.mode = PinMode.notPinned <;> simp [List.filter_cons, h]

/-- The loop of Unstore: its unpin calls are the pinned keys up to the first
failure; without a failure they are all the pinned keys. -/
theorem unstoreLoop_calls (n : Node δ κ) (pinned : List Pinned) :
    ∀ (k : κ) (tr : List Event),
      (∃ rest, unpinCalls (unstoreLoop n pinned k tr).2.2 ++ rest
        = unpinCalls tr ++ pinnedKeys pinned) ∧
      ((unstoreLoop n pinned k tr).1 = none →
        unpinCalls (unstoreLoop n pinned k tr).2.2 = unpinCalls tr ++ pinnedKeys pinned ∧
        failedUnpins (unstoreLoop n pinned k tr).2.2 = failedUnpins tr) ∧
      ((unstoreLoop n pinned k tr).1 ≠ none →
        failedUnpins (unstoreLoop n pinned k tr).2.2 ≠ []) := by
  induction pinned with
  | nil =>
    intro k tr
    simp [unstoreLoop, pinnedKeys]
  | cons p ps ih =>
    intro k tr
    rw [pinnedKeys_cons]
    unfold unstoreLoop
    by_cases hm : p.mode = PinMode.notPinned
    · simp only [hm, ne_eq, not_true_eq_false, if_false]
      exact ih k tr
    · simp only [hm, ne_eq, not_false_eq_true, if_true]
      split
      · refine ⟨⟨pinnedKeys ps, ?_⟩, ?_, ?_⟩
        · simp [unpinCalls_append, unpinCalls]
        · simp
        · simp [failedUnpins_append, failedUnpins]
      · obtain ⟨⟨rest, h1⟩, h2, h3⟩ := ih _ (tr ++ [Event.unpinCid p.key true none])
        refine ⟨⟨rest, ?_⟩, ?_, h3⟩
        · rw [h1]
          simp [unpinCalls_append, unpinCalls]
        · intro hnone
          obtain ⟨c1, c2⟩ := h2 hnone
          rw [c1, c2]
          simp [unpinCalls_append, unpinCalls, failedUnpins_append, failedUnpins]


/-- The trace of the loop of Unstore.  Without a failure it is extended by one
successful unpin per pinned key, in order.  With a failure, the pinned keys
split into those before the failing one, the failing one and those after it,
and the trace is extended by the successful unpins of the keys before and then
the failed unpin, which is its last call. -/
theorem unstoreLoop_trace (n : Node δ κ) (pinned : List Pinned) :
    ∀ (k : κ) (tr : List Event),
      ((unstoreLoop n pinned k tr).1 = none →
        (unstoreLoop n pinned k tr).2.2
          = tr ++ (pinnedKeys pinned).map (fun key => Event.unpinCid key true none)) ∧
      (∀ e, (unstoreLoop n pinned k tr).1 = some e →
        ∃ done failed skipped,
          pinnedKeys pinned = done ++ failed :: skipped ∧
          (unstoreLoop n pinned k tr).2.2
            = tr ++ (done.map (fun key => Event.unpinCid key true none)
                ++ [Event.unpinCid failed true (some e)])) := by
  induction pinned with
  | nil =>
    intro k tr
    simp [unstoreLoop, pinnedKeys]
  | cons p ps ih =>
    intro k tr
    rw [pinnedKeys_cons]
    unfold unstoreLoop
    by_cases hm : p.mode = PinMode.notPinned
    · simp only [hm, ne_eq, not_true_eq_false, if_false]
      exact ih k tr
    · simp only [hm, ne_eq, not_false_eq_true, if_true]
      split
      · rename_i e0 k1 _
        refine ⟨by simp, ?_⟩
        intro e he
        have hee : e0 = e := by simpa using he
        exact ⟨[], p.key, pinnedKeys ps, by simp, by simp [hee]⟩
      · obtain ⟨h1, h2⟩ := ih _ (tr ++ [Event.unpinCid p.key true none])
        refine ⟨?_, ?_⟩
        · intro hnone
          rw [h1 hnone]
          simp
        · intro e he
          obtain ⟨done, failed, skipped, hk, ht⟩ := h2 e he
          exact ⟨p.key :: done, failed, skipped, by simp [hk], by rw [ht]; simp⟩

/-- C6, as amended: for a valid content id whose pin-status lookup succeeds,
the unpin calls of Unstore are, in lookup order, the records whose mode is not
NotPinned, up to and including the first whose unpin fails; Unstore responds
204 exactly when no unpin call fails, and then it has unpinned each such
record exactly once; otherwise it responds 400, the failed unpin is its last
call, every unpin before it succeeded, and the records after the failing one
are not unpinned.  When the lookup returns no pinned record, it responds 204
and performs no unpin call. -/
theorem unstore_unpin_calls (n : Node δ κ) (g : Context) (s : State δ κ) (id : Cid)
    (pinned : List Pinned)
    (hid : n.cidDecode (g.param "cid") = Res.ok id)
    (hlook : n.checkIfPinned s.ipfs id = Res.ok pinned) :
    (∃ rest, unpinCalls (unstore n g s).trace ++ rest = pinnedKeys pinned) ∧
    ((unstore n g s).reply = Reply.status 204 ↔ failedUnpins (unstore n g s).trace = []) ∧
    ((unstore n g s).reply = Reply.status 204 ∨ (unstore n g s).reply = Reply.status 400) ∧
    ((unstore n g s).reply = Reply.status 204 →
      unpinCalls (unstore n g s).trace = pinnedKeys pinned) ∧
    (pinnedKeys pinned = [] →
      (unstore n g s).reply = Reply.status 204 ∧ unpinCalls (unstore n g s).trace = []) ∧
    ((unstore n g s).reply = Reply.status 204 →
      (unstore n g s).trace
        = Event.checkIfPinned id (Res.ok pinned) ::
            (pinnedKeys pinned).map (fun key => Event.unpinCid key true none)) ∧
    ((unstore n g s).reply = Reply.status 400 →
      ∃ done failed skipped e,
        pinnedKeys pinned = done ++ failed :: skipped ∧
        (unstore n g s).trace
          = Event.checkIfPinned id (Res.ok pinned) ::
              (done.map (fun key => Event.unpinCid key true none)
                ++ [Event.unpinCid failed true (some e)]) ∧
        unpinCalls (unstore n g s).trace = done ++ [failed] ∧
        failedUnpins (unstore n g s).trace = [failed]) := by
  obtain ⟨t1, t2⟩ :=
    unstoreLoop_trace n pinned s.ipfs [Event.checkIfPinned id (Res.ok pinned)]
  obtain ⟨⟨rest, h1⟩, h2, h3⟩ :=
    unstoreLoop_calls n pinned s.ipfs [Event.checkIfPinned id (Res.ok pinned)]
  have hcases : ∀ r : Option Error × κ × List Event,
      r = unstoreLoop n pinned s.ipfs [Event.checkIfPinned id (Res.ok pinned)] →
      (unstore n g s).trace = r.2.2 ∧
      ((unstore n g s).reply = Reply.status 204 ↔ r.1 = none) ∧
      ((unstore n g s).reply = Reply.status 204 ∨ (unstore n g s).reply = Reply.status 400) := by
    intro r hr
    unfold unstore
    simp only [hid, hlook, ← hr]
    rcases r with ⟨_ | e, k1, tr⟩ <;> simp [abort, StatusNoContent, StatusBadRequest]
  obtain ⟨ht, hr, hor⟩ := hcases _ rfl
  simp only [unpinCalls, List.nil_append, failedUnpins] at h1 h2 h3
  rw [ht]
  have hiff : (unstore n g s).reply = Reply.status 204 ↔
      failedUnpins (unstoreLoop n pinned s.ipfs
        [Event.checkIfPinned id (Res.ok pinned)]).2.2 = [] := by
    rw [hr]
    constructor
    · intro hn; exact (h2 hn).2
    · intro hf
      by_contra hne
      exact h3 hne hf
  have hok : ∀ keys : List Cid,
      unpinCalls (keys.map (fun key => Event.unpinCid key true none)) = keys ∧
      failedUnpins (keys.map (fun key => Event.unpinCid key true none)) = [] := by
    intro keys
    induction keys with
    | nil => exact ⟨rfl, rfl⟩
    | cons key keys ih => simp [unpinCalls, failedUnpins, ih.1, ih.2]
  refine ⟨⟨rest, h1⟩, hiff, hor, ?_, ?_, ?_, ?_⟩
  · intro h204
    exact (h2 (hr.mp h204)).1
  · intro hnil
    rw [hnil] at h1
    have hc : unpinCalls (unstoreLoop n pinned s.ipfs
        [Event.checkIfPinned id (Res.ok pinned)]).2.2 = [] :=
      (List.append_eq_nil.mp h1).1
    refine ⟨?_, hc⟩
    rw [hr]
    by_contra hne
    have hf := h3 hne
    have hsub : ∀ tr : List Event, unpinCalls tr = [] → failedUnpins tr = [] := by
      intro tr
      induction tr with
      | nil => intro _; rfl
      | cons e es ih =>
        cases e with
        | unpinCid key r err => simp [unpinCalls]
        | _ => simpa [unpinCalls, failedUnpins] using ih
    exact hf (hsub _ hc)
  · intro h204
    rw [t1 (hr.mp h204)]
    rfl
  · intro h400
    have hne : (unstoreLoop n pinned s.ipfs
        [Event.checkIfPinned id (Res.ok pinned)]).1 ≠ none := by
      intro hnone
      rw [hr.mpr hnone] at h400
      simp at h400
    obtain ⟨e, he⟩ := Option.ne_none_iff_exists'.mp hne
    obtain ⟨done, failed, skipped, hk, ht⟩ := t2 e he
    refine ⟨done, failed, skipped, e, hk, by rw [ht]; rfl, ?_, ?_⟩
    · rw [ht]
      simp [unpinCalls_append, unpinCalls, (hok done).1]
    · rw [ht]
      simp [failedUnpins_append, failedUnpins, (hok done).2]


/-! ## Theorems: the content steps of a delivery -/

theorem contentFailures_append (a b : List Event) :
    contentFailures (a ++ b) = contentFailures a ++ contentFailures b := by
  induction a with
  | nil => rfl
  | cons e es ih =>
    cases e with
    | addObject d p r => cases r <;> simp [contentFailures, ih]
    | addData d p h r => cases r <;> simp [contentFailures, ih]
    | nodeAtCid c r => cases r <;> simp [contentFailures, ih]
    | extractNode nd f r => cases r <;> simp [contentFailures, ih]
    | _ => simp [contentFailures, ih]

theorem storeFailures_append (a b : List Event) :
    storeFailures (a ++ b) = storeFailures a ++ storeFailures b := by
  induction a with
  | nil => rfl
  | cons e es ih =>
    cases e with
    | threadsAddOrUpdate r err => cases err <;> simp [storeFailures, ih]
    | threadsDelete i c err => cases err <;> simp [storeFailures, ih]
    | messagesAddOrUpdate r err => cases err <;> simp [storeFailures, ih]
    | _ => simp [storeFailures, ih]

theorem notifications_append (a b : List Event) :
    notifications (a ++ b) = notifications a ++ notifications b := by
  induction a with
  | nil => rfl
  | cons e es ih => cases e <;> simp [notifications, ih]

theorem deliverRecord_cases (n : Node δ κ) (frm : String) (client : CafeClient)
    (now : Timestamp) (body : Bytes) (db : δ) (k : κ) (tr : List Event) :
    Recorded n db (inboxRecord n now frm body client) tr
      (deliverRecord n frm client now (n.cidOfData body) db k tr) := by
  unfold deliverRecord Recorded inboxRecord
  simp only []
  split
  · rename_i e db1 heq
    exact Or.inl ⟨e, by simp [abort, heq], by simp [abort, StatusInternalServerError],
      by simp [abort]⟩
  · rename_i db1 heq
    exact Or.inr ⟨by simp [heq], by simp [StatusOK], rfl⟩

theorem deliverEnvelope_cases (n : Node δ κ) (frm : String) (client : CafeClient)
    (now : Timestamp) (body : Bytes) (db : δ) (k : κ) (tr : List Event)
    (hm : messageUpserts tr = []) (hn : notifications tr = []) (hs : storeFailures tr = []) :
    ContentFailed db (deliverEnvelope n frm client now body db k tr) ∨
    Recorded n db (inboxRecord n now frm body client)
      (tr ++ [Event.addData body true false (Res.ok (n.cidOfData body))])
      (deliverEnvelope n frm client now body db k tr) := by
  unfold deliverEnvelope AddData
  split
  · left
    simp [ContentFailed, abort, StatusBadRequest, contentFailures_append, contentFailures,
      messageUpserts_append, messageUpserts, notifications_append, notifications, hm, hn,
      storeFailures_append, storeFailures, hs]
  · rename_i id k1 heq
    right
    split at heq
    · simp at heq
    · simp only [Prod.mk.injEq, Res.ok.injEq] at heq
      obtain ⟨hid, _⟩ := heq
      subst hid
      exact deliverRecord_cases n frm client now body db k1 _

theorem deliverExtract_cases (n : Node δ κ) (frm : String) (client : CafeClient)
    (now : Timestamp) (body : Bytes) (tenv : ThreadEnvelope) (node : IpldNode) (db : δ) (k : κ)
    (tr : List Event) (hm : messageUpserts tr = []) (hn : notifications tr = [])
    (hs : storeFailures tr = []) :
    ContentFailed db (deliverExtract n frm client now body tenv node db k tr) ∨
    Recorded n db (inboxRecord n now frm body client)
      (tr ++ [Event.extractNode node tenv.block.isNone none,
        Event.addData body true false (Res.ok (n.cidOfData body))])
      (deliverExtract n frm client now body tenv node db k tr) := by
  unfold deliverExtract
  simp only []
  split
  · left
    simp [ContentFailed, abort, StatusBadRequest, contentFailures_append, contentFailures,
      messageUpserts_append, messageUpserts, notifications_append, notifications, hm, hn,
      storeFailures_append, storeFailures, hs]
  · rename_i k1 _
    have h := deliverEnvelope_cases n frm client now body db k1
      (tr ++ [Event.extractNode node tenv.block.isNone none])
      (by simp [messageUpserts_append, messageUpserts, hm])
      (by simp [notifications_append, notifications, hn])
      (by simp [storeFailures_append, storeFailures, hs])
    simpa [List.append_assoc] using h

/-- Every outcome of the content steps and the inbox upsert of a delivery:
a content step failed, or all of them succeeded, in the order of
`contentSteps`, and the inbox upsert was attempted. -/
theorem deliverPins_cases (n : Node δ κ) (frm : String) (client : CafeClient) (now : Timestamp)
    (body : Bytes) (tenv : ThreadEnvelope) (s : State δ κ) :
    ContentFailed s.db (deliverPins n frm client now body tenv s) ∨
    ∃ oid node, Recorded n s.db (inboxRecord n now frm body client)
      (contentSteps n body tenv oid node) (deliverPins n frm client now body tenv s) := by
  unfold deliverPins
  simp only []
  split
  · left
    simp [ContentFailed, abort, StatusBadRequest, contentFailures, messageUpserts, notifications,
      storeFailures]
  · rename_i oid k1 _
    split
    · left
      simp [ContentFailed, abort, StatusBadRequest, contentFailures, messageUpserts,
        notifications, storeFailures]
    · rename_i node k2 _
      split
      · rename_i block hb
        unfold AddData
        split
        · left
          simp [ContentFailed, abort, StatusBadRequest, contentFailures, messageUpserts,
            notifications, storeFailures]
        · rename_i c k3 heq
          split at heq
          · simp at heq
          · simp only [Prod.mk.injEq, Res.ok.injEq] at heq
            obtain ⟨hc, _⟩ := heq
            subst hc
            rcases deliverExtract_cases n frm client now body tenv node s.db k3 _
              (show messageUpserts ([Event.addObject tenv.node true (Res.ok oid)] ++
                [Event.nodeAtCid oid (Res.ok node)] ++
                [Event.addData block true false (Res.ok (n.cidOfData block))]) = [] by
                  simp [messageUpserts])
              (by simp [notifications]) (by simp [storeFailures]) with h | h
            · exact Or.inl h
            · refine Or.inr ⟨oid, node, ?_⟩
              simpa [contentSteps, hb, List.append_assoc] using h
      · rename_i hb
        rcases deliverExtract_cases n frm client now body tenv node s.db k2
            ([Event.addObject tenv.node true (Res.ok oid)] ++ [Event.nodeAtCid oid (Res.ok node)])
            (by simp [messageUpserts]) (by simp [notifications]) (by simp [storeFailures])
            with h | h
        · exact Or.inl h
        · refine Or.inr ⟨oid, node, ?_⟩
          simpa [contentSteps, hb, List.append_assoc] using h


theorem contentSteps_clean (n : Node δ κ) (body : Bytes) (tenv : ThreadEnvelope) (oid : Cid)
    (node : IpldNode) :
    contentFailures (contentSteps n body tenv oid node) = [] ∧
    messageUpserts (contentSteps n body tenv oid node) = [] ∧
    notifications (contentSteps n body tenv oid node) = [] ∧
    storeFailures (contentSteps n body tenv oid node) = [] := by
  unfold contentSteps
  cases tenv.block <;>
    simp [contentFailures, messageUpserts, notifications, storeFailures]

/-- Every outcome of a delivery: it ended before any call, or it is the
outcome of the content steps for the decoded thread envelope. -/
theorem deliverMessage_cases (n : Node δ κ) (now : Timestamp) (g : Context) (s : State δ κ) :
    ((deliverMessage n now g s).trace = [] ∧ (deliverMessage n now g s).db = s.db ∧
      (deliverMessage n now g s).ipfs = s.ipfs) ∨
    ∃ client nenv m tenv,
      n.cafeClientsGet s.db (g.param "to") = some client ∧ readFailed g = false ∧
      n.unmarshalEnvelope g.body = Res.ok nenv ∧ nenv.message = some m ∧
      n.unmarshalAny m.payload = Res.ok tenv ∧
      deliverMessage n now g s = deliverPins n (g.param "from") client now g.body tenv s := by
  unfold deliverMessage
  simp only []
  split
  · simp
  · rename_i client hc
    split
    · simp [abort]
    · rename_i hr
      split
      · simp [abort]
      · rename_i nenv he
        split
        · simp
        · rename_i m hm
          split
          · simp [abort]
          · rename_i tenv ht
            exact Or.inr ⟨client, nenv, m, tenv, hc, by simpa using hr, he, hm, ht, rfl⟩


/-- C11: for a registered recipient and a decodable envelope, if a content
step of DeliverMessage fails (structured pin of the node, resolution, raw pin
of the carried block, extraction, raw pin of the envelope) the reply is 400,
no CafeClientMessage is upserted, no notification is started and the mailbox
store is unchanged; an inbox upsert is issued only after all the content
steps have succeeded, in the order of the source. -/
theorem deliver_content_failure (n : Node δ κ) (now : Timestamp) (g : Context)
    (s : State δ κ) (client : CafeClient) (nenv : Envelope) (m : Message)
    (tenv : ThreadEnvelope)
    (hreg : n.cafeClientsGet s.db (g.param "to") = some client)
    (henv : n.unmarshalEnvelope g.body = Res.ok nenv)
    (hmsg : nenv.message = some m)
    (hany : n.unmarshalAny m.payload = Res.ok tenv) :
    (contentFailures (deliverMessage n now g s).trace ≠ [] →
      (deliverMessage n now g s).reply = Reply.status 400 ∧
      messageUpserts (deliverMessage n now g s).trace = [] ∧
      notifications (deliverMessage n now g s).trace = [] ∧
      (deliverMessage n now g s).db = s.db) ∧
    (messageUpserts (deliverMessage n now g s).trace ≠ [] →
      contentFailures (deliverMessage n now g s).trace = [] ∧
      ∃ oid node err rest,
        (deliverMessage n now g s).trace
          = contentSteps n g.body tenv oid node ++
            Event.messagesAddOrUpdate (inboxRecord n now (g.param "from") g.body client) err
              :: rest) := by
  rcases deliverMessage_cases n now g s with ⟨ht, _, _⟩ | ⟨c', e', m', t', hc, _, he, hm, ht, heq⟩
  · simp [ht, contentFailures, messageUpserts]
  · rw [hreg] at hc
    rw [henv] at he
    cases hc
    cases he
    rw [hmsg] at hm
    cases hm
    rw [hany] at ht
    cases ht
    rw [heq]
    have c1 := fun oid node => (contentSteps_clean n g.body tenv oid node).1
    rcases deliverPins_cases n (g.param "from") client now g.body tenv s with
      ⟨h1, h2, h3, h4, _, h6⟩ | ⟨oid, node, ⟨e, _, _, htr⟩ | ⟨_, _, htr⟩⟩
    · exact ⟨fun _ => ⟨h1, h3, h4, h6⟩, fun hne => absurd h3 hne⟩
    · refine ⟨fun hne => ?_, fun _ => ⟨?_, oid, node, some e, [], htr⟩⟩
      · rw [htr, contentFailures_append, c1 oid node] at hne
        simp [contentFailures] at hne
      · rw [htr, contentFailures_append, c1 oid node]
        simp [contentFailures]
    · refine ⟨fun hne => ?_, fun _ => ⟨?_, oid, node, none, _, htr⟩⟩
      · rw [htr, contentFailures_append, c1 oid node] at hne
        simp [contentFailures] at hne
      · rw [htr, contentFailures_append, c1 oid node]
        simp [contentFailures]


theorem deliverMessage_decodable (n : Node δ κ) (now : Timestamp) (g : Context)
    (s : State δ κ) (client : CafeClient) (nenv : Envelope) (m : Message)
    (tenv : ThreadEnvelope)
    (hreg : n.cafeClientsGet s.db (g.param "to") = some client)
    (hread : readFailed g = false)
    (henv : n.unmarshalEnvelope g.body = Res.ok nenv)
    (hmsg : nenv.message = some m)
    (hany : n.unmarshalAny m.payload = Res.ok tenv) :
    deliverMessage n now g s = deliverPins n (g.param "from") client now g.body tenv s := by
  unfold deliverMessage
  simp [hreg, hread, henv, hmsg, hany]

/-- C17, as amended: for a request whose body is read and decodes as an
Envelope carrying a ThreadEnvelope, the reply when the recipient has no
CafeClient record is the reply when the recipient is registered and no call
to the content store or to the mailbox store fails: 200 in both cases. -/
theorem deliver_same_reply_when_well_formed (n : Node δ κ) (now : Timestamp) (g : Context)
    (s1 s2 : State δ κ) (client : CafeClient) (nenv : Envelope) (m : Message)
    (tenv : ThreadEnvelope)
    (hunk : n.cafeClientsGet s1.db (g.param "to") = none)
    (hreg : n.cafeClientsGet s2.db (g.param "to") = some client)
    (hread : readFailed g = false)
    (henv : n.unmarshalEnvelope g.body = Res.ok nenv)
    (hmsg : nenv.message = some m)
    (hany : n.unmarshalAny m.payload = Res.ok tenv)
    (hc : contentFailures (deliverMessage n now g s2).trace = [])
    (hs : storeFailures (deliverMessage n now g s2).trace = []) :
    (deliverMessage n now g s1).reply = Reply.status 200 ∧
    (deliverMessage n now g s2).reply = Reply.status 200 ∧
    (deliverMessage n now g s1).reply = (deliverMessage n now g s2).reply := by
  have h1 : (deliverMessage n now g s1).reply = Reply.status 200 := by
    simp [deliverMessage, hunk, StatusOK]
  have h2 : (deliverMessage n now g s2).reply = Reply.status 200 := by
    rw [deliverMessage_decodable n now g s2 client nenv m tenv hreg hread henv hmsg hany]
      at hc hs ⊢
    rcases deliverPins_cases n (g.param "from") client now g.body tenv s2 with
      ⟨_, h, _⟩ | ⟨oid, node, ⟨e, _, _, htr⟩ | ⟨_, hr, _⟩⟩
    · exact absurd hc h
    · rw [htr, storeFailures_append] at hs
      simp [storeFailures] at hs
    · exact hr
  exact ⟨h1, h2, h1.trans h2.symm⟩

/-- C19: when the mailbox store reports a failure to the handler, the reply is
500: StoreThread when the thread upsert fails, UnstoreThread when the thread
delete fails, DeliverMessage when the message upsert fails. -/
theorem store_failure_responds_500 (n : Node δ κ) (now : Timestamp) (g : Context)
    (s : State δ κ) :
    (storeFailures (storeThread n g s).trace ≠ [] →
      (storeThread n g s).reply = Reply.status 500) ∧
    (storeFailures (unstoreThread n g s).trace ≠ [] →
      (unstoreThread n g s).reply = Reply.status 500) ∧
    (storeFailures (deliverMessage n now g s).trace ≠ [] →
      (deliverMessage n now g s).reply = Reply.status 500) := by
  refine ⟨?_, ?_, ?_⟩
  · unfold storeThread
    simp only []
    split
    · simp [abort, storeFailures]
    · split
      · simp [abort, storeFailures]
      · split <;> simp [abort, storeFailures, StatusInternalServerError]
  · unfold unstoreThread
    simp only []
    split
    · simp [abort, storeFailures]
    · split <;> simp [abort, storeFailures, StatusInternalServerError]
  · intro hne
    rcases deliverMessage_cases n now g s with
      ⟨ht, _, _⟩ | ⟨client, nenv, m, tenv, _, _, _, _, _, heq⟩
    · rw [ht] at hne
      exact absurd rfl hne
    · rw [heq] at hne ⊢
      rcases deliverPins_cases n (g.param "from") client now g.body tenv s with
        ⟨_, _, _, _, h, _⟩ | ⟨oid, node, ⟨e, _, hr, _⟩ | ⟨_, _, htr⟩⟩
      · exact absurd h hne
      · exact hr
      · rw [htr, storeFailures_append, (contentSteps_clean n g.body tenv oid node).2.2.2] at hne
        simp [storeFailures] at hne


/-! ## Theorems: the notification goroutine -/

theorem deliverRecord_notify (n : Node δ κ) (f : String → Option Error) (frm : String)
    (client : CafeClient) (now : Timestamp) (id : Cid) (db : δ) (k : κ) (tr : List Event) :
    SameOutcome (deliverRecord { n with notifyClient := f } frm client now id db k tr)
      (deliverRecord n frm client now id db k tr) := by
  unfold deliverRecord SameOutcome
  dsimp only
  split <;> simp [abort]

theorem deliverEnvelope_notify (n : Node δ κ) (f : String → Option Error) (frm : String)
    (client : CafeClient) (now : Timestamp) (body : Bytes) (db : δ) (k : κ) (tr : List Event) :
    SameOutcome (deliverEnvelope { n with notifyClient := f } frm client now body db k tr)
      (deliverEnvelope n frm client now body db k tr) := by
  unfold deliverEnvelope
  have h : AddData { n with notifyClient := f } k body true false = AddData n k body true false :=
    rfl
  rw [h]
  split
  · simp [SameOutcome, abort]
  · exact deliverRecord_notify n f frm client now _ db _ _

theorem deliverExtract_notify (n : Node δ κ) (f : String → Option Error) (frm : String)
    (client : CafeClient) (now : Timestamp) (body : Bytes) (tenv : ThreadEnvelope)
    (node : IpldNode) (db : δ) (k : κ) (tr : List Event) :
    SameOutcome (deliverExtract { n with notifyClient := f } frm client now body tenv node db k tr)
      (deliverExtract n frm client now body tenv node db k tr) := by
  unfold deliverExtract
  dsimp only
  split
  · simp [SameOutcome, abort]
  · exact deliverEnvelope_notify n f frm client now body db _ _

theorem deliverPins_notify (n : Node δ κ) (f : String → Option Error) (frm : String)
    (client : CafeClient) (now : Timestamp) (body : Bytes) (tenv : ThreadEnvelope)
    (s : State δ κ) :
    SameOutcome (deliverPins { n with notifyClient := f } frm client now body tenv s)
      (deliverPins n frm client now body tenv s) := by
  unfold deliverPins
  dsimp only
  split
  · simp [SameOutcome, abort]
  · split
    · simp [SameOutcome, abort]
    · split
      · rename_i block _
        have h : ∀ k, AddData { n with notifyClient := f } k block true false
            = AddData n k block true false := fun _ => rfl
        simp only [h]
        split
        · simp [SameOutcome, abort]
        · exact deliverExtract_notify n f frm client now body tenv _ s.db _ _
      · exact deliverExtract_notify n f frm client now body tenv _ s.db _ _

theorem deliverMessage_notify (n : Node δ κ) (f : String → Option Error) (now : Timestamp)
    (g : Context) (s : State δ κ) :
    SameOutcome (deliverMessage { n with notifyClient := f } now g s)
      (deliverMessage n now g s) := by
  unfold deliverMessage
  dsimp only
  split
  · simp [SameOutcome]
  · split
    · simp [SameOutcome, abort]
    · split
      · simp [SameOutcome, abort]
      · split
        · simp [SameOutcome]
        · split
          · simp [SameOutcome, abort]
          · exact deliverPins_notify n f _ _ now g.body _ s

/-- C18: the reply of DeliverMessage and the stores it leaves do not depend on
the outcome of the client notification: they are the same for every outcome
function of `notifyClient`; and whenever the inbox upsert is accepted the
reply is 200 and one notification goroutine is started, whatever its
outcome. -/
theorem deliver_ignores_notification (n : Node δ κ) (f : String → Option Error)
    (now : Timestamp) (g : Context) (s : State δ κ) :
    (deliverMessage { n with notifyClient := f } now g s).reply
      = (deliverMessage n now g s).reply ∧
    (deliverMessage { n with notifyClient := f } now g s).db = (deliverMessage n now g s).db ∧
    (deliverMessage { n with notifyClient := f } now g s).ipfs
      = (deliverMessage n now g s).ipfs ∧
    (∀ r, Event.messagesAddOrUpdate r none ∈ (deliverMessage n now g s).trace →
      (deliverMessage n now g s).reply = Reply.status 200 ∧
      (deliverMessage { n with notifyClient := f } now g s).reply = Reply.status 200 ∧
      notifications (deliverMessage n now g s).trace = [r.client]) := by
  obtain ⟨h1, h2, h3⟩ := deliverMessage_notify n f now g s
  refine ⟨h1, h2, h3, ?_⟩
  intro r hr
  have key : (deliverMessage n now g s).reply = Reply.status 200 ∧
      notifications (deliverMessage n now g s).trace = [r.client] := by
    rcases deliverMessage_cases n now g s with
      ⟨ht, _, _⟩ | ⟨client, nenv, m, tenv, _, _, _, _, _, heq⟩
    · rw [ht] at hr
      cases hr
    · rw [heq] at hr ⊢
      rcases deliverPins_cases n (g.param "from") client now g.body tenv s with
        ⟨_, _, hm, _⟩ | ⟨oid, node, ⟨e, _, _, htr⟩ | ⟨_, hrep, htr⟩⟩
      · exfalso
        have : ∀ tr : List Event, Event.messagesAddOrUpdate r none ∈ tr →
            messageUpserts tr ≠ [] := by
          intro tr
          induction tr with
          | nil => intro h; cases h
          | cons e es ih =>
            intro h
            rcases List.mem_cons.mp h with heq | hin
            · subst heq
              simp [messageUpserts]
            · cases e <;> simp [messageUpserts, ih hin]
        exact this _ hr hm
      · exfalso
        rw [htr] at hr
        have hpre : ∀ ev ∈ contentSteps n g.body tenv oid node,
            ev ≠ Event.messagesAddOrUpdate r none := by
          intro ev hev
          unfold contentSteps at hev
          cases hb : tenv.block <;> simp [hb] at hev <;>
            rcases hev with rfl | rfl | rfl | rfl | rfl <;> simp
        rcases List.mem_append.mp hr with h | h
        · exact hpre _ h rfl
        · simp at h
      · refine ⟨hrep, ?_⟩
        rw [htr] at hr ⊢
        have hpre : ∀ ev ∈ contentSteps n g.body tenv oid node,
            ev ≠ Event.messagesAddOrUpdate r none := by
          intro ev hev
          unfold contentSteps at hev
          cases hb : tenv.block <;> simp [hb] at hev <;>
            rcases hev with rfl | rfl | rfl | rfl | rfl <;> simp
        rcases List.mem_append.mp hr with h | h
        · exact absurd rfl (hpre _ h)
        · simp at h
          subst h
          rw [notifications_append, (contentSteps_clean n g.body tenv oid node).2.2.1]
          simp [notifications, inboxRecord]
  exact ⟨key.1, h1.trans key.1, key.2⟩


/-! ## Theorems: the streaming step of Search -/

theorem frame_eq (p : Bytes) (h : p.length ≤ 65535) :
    frame p = [p.length % 256, p.length / 256] ++ p := by
  have h1 : p.length % 65536 = p.length := Nat.mod_eq_of_lt (by omega)
  have h2 : p.length / 256 % 256 = p.length / 256 := Nat.mod_eq_of_lt (by omega)
  simp [frame, putUint16LE, uint16, h1, h2]

/-- The stream after the handler delivered the results `rs`, each carrying a
message, serialized as `ps`, with the results channel still open. -/
theorem streamLoop_results_open (n : Node δ κ) (rs : List Envelope) (ps : List Bytes)
    (h : List.Forall₂ (fun r p => r.message ≠ none ∧ n.marshalEnvelope r = Res.ok p) rs ps)
    (st : Stream) :
    (streamLoop n (rs.map (fun r => Select.msgRecv (some r))) st).chunks
      = st.chunks ++ ps.map frame := by
  induction h generalizing st with
  | nil => simp [streamLoop]
  | cons hr _ ih =>
    simp only [List.map_cons, streamLoop, searchStep_result n st _ _ hr.1 hr.2]
    exact (ih _).trans (by simp [List.append_assoc])

/-- The chunks of Search, for results that carry a message: when Search accepts
the request and the results channel delivers the results `rs`, each carrying a
message, serialized as `ps` with each at most 65535 bytes, Search writes
exactly one chunk per result, in order: the 2-byte little-endian length of the
serialized result followed by its bytes; each chunk has length 2 + len, and
closing the channel writes nothing more. -/
theorem search_writes_frames (n : Node δ κ) (g : Context) (pid : String) (pmes : Envelope)
    (rs : List Envelope) (ps : List Bytes)
    (hfrom : n.peerDecode (g.getString "from") = Res.ok pid)
    (hread : readFailed g = false)
    (hbody : n.unmarshalEnvelope g.body = Res.ok pmes)
    (h : List.Forall₂ (fun r p =>
      r.message ≠ none ∧ n.marshalEnvelope r = Res.ok p ∧ p.length ≤ 65535) rs ps) :
    (search n g (rs.map (fun r => Select.msgRecv (some r)))).chunks
      = ps.map (fun p => [p.length % 256, p.length / 256] ++ p) ∧
    (search n g (rs.map (fun r => Select.msgRecv (some r)))).bytes
      = (ps.map (fun p => [p.length % 256, p.length / 256] ++ p)).flatten ∧
    (search n g (rs.map (fun r => Select.msgRecv (some r)) ++ [Select.msgRecv none])).chunks
      = ps.map (fun p => [p.length % 256, p.length / 256] ++ p) ∧
    ((search n g (rs.map (fun r => Select.msgRecv (some r)))).chunks.map
      List.length) = ps.map (fun p => 2 + p.length) ∧
    (∀ p ∈ ps, p.length % 256 + 256 * (p.length / 256) = p.length ∧ p.length / 256 < 256) := by
  have hm : List.Forall₂ (fun r p => r.message ≠ none ∧ n.marshalEnvelope r = Res.ok p) rs ps :=
    h.imp (fun _ _ hrp => ⟨hrp.1, hrp.2.1⟩)
  have hl : ∀ p ∈ ps, p.length ≤ 65535 := by
    clear hm
    induction h with
    | nil => simp
    | cons hrp _ ih =>
      intro p hp
      rcases List.mem_cons.mp hp with rfl | hp
      · exact hrp.2.2
      · exact ih p hp
  have hframes : ps.map frame = ps.map (fun p => [p.length % 256, p.length / 256] ++ p) :=
    List.map_congr_left (fun p hp => frame_eq p (hl p hp))
  have hopen := streamLoop_results_open n rs ps hm Stream.init
  have hclosed := streamLoop_results n rs ps hm Stream.init
  simp only [Stream.init, List.nil_append] at hopen hclosed
  rw [search_accepted n g _ pid pmes hfrom hread hbody,
    search_accepted n g _ pid pmes hfrom hread hbody]
  refine ⟨?_, ?_, ?_, ?_, ?_⟩
  · rw [Stream.init, hopen, hframes]
  · rw [Stream.bytes, Stream.init, hopen, hframes]
  · rw [Stream.init, hclosed, hframes]
  · rw [Stream.init, hopen, hframes, List.map_map]
    apply List.map_congr_left
    intro p _
    simp [Function.comp]
    omega
  · intro p hp
    have := hl p hp
    omega

/-- C14, as amended: in the streaming step of Search, a closed results channel
sets status 200, writes no frame and ends the stream; an error from the errors
channel aborts with 400, writes no frame and ends the stream; a result that
carries a message and serializes writes exactly one frame and keeps the stream
open; a result that carries a message and whose serialization fails aborts
with 500, writes no frame and ends the stream. -/
theorem search_step_outcomes (n : Node δ κ) (st : Stream) (err : Error) (rpmes : Envelope) :
    ((searchStep n (Select.msgRecv none) st).1 = false ∧
      (searchStep n (Select.msgRecv none) st).2.status = some 200 ∧
      (searchStep n (Select.msgRecv none) st).2.chunks = st.chunks) ∧
    ((searchStep n (Select.errRecv err) st).1 = false ∧
      (searchStep n (Select.errRecv err) st).2.status = some 400 ∧
      (searchStep n (Select.errRecv err) st).2.chunks = st.chunks) ∧
    (∀ payload, rpmes.message ≠ none → n.marshalEnvelope rpmes = Res.ok payload →
      (searchStep n (Select.msgRecv (some rpmes)) st).1 = true ∧
      (searchStep n (Select.msgRecv (some rpmes)) st).2.status = some 200 ∧
      (searchStep n (Select.msgRecv (some rpmes)) st).2.panicked = st.panicked ∧
      (searchStep n (Select.msgRecv (some rpmes)) st).2.chunks = st.chunks ++ [frame payload]) ∧
    (∀ e, rpmes.message ≠ none → n.marshalEnvelope rpmes = Res.err e →
      (searchStep n (Select.msgRecv (some rpmes)) st).1 = false ∧
      (searchStep n (Select.msgRecv (some rpmes)) st).2.status = some 500 ∧
      (searchStep n (Select.msgRecv (some rpmes)) st).2.panicked = st.panicked ∧
      (searchStep n (Select.msgRecv (some rpmes)) st).2.chunks = st.chunks) := by
  refine ⟨?_, ?_, ?_, ?_⟩
  · simp [searchStep, StatusOK]
  · simp [searchStep, StatusBadRequest]
  · intro payload hmsg hp
    rw [searchStep_result n st rpmes payload hmsg hp]
    simp
  · intro e hmsg he
    obtain ⟨m, hm⟩ := Option.ne_none_iff_exists'.mp hmsg
    simp [searchStep, hm, he, StatusInternalServerError]

/-- A step other than the context case leaves the cancellation signal as it
was. -/
theorem searchStep_cancel (n : Node δ κ) (ev : Select) (st : Stream) (h : ev ≠ Select.ctxDone) :
    (searchStep n ev st).2.cancelClosed = st.cancelClosed := by
  cases ev with
  | ctxDone => exact absurd rfl h
  | errRecv e => simp [searchStep]
  | msgRecv r =>
    cases r with
    | none => simp [searchStep]
    | some rpmes =>
      unfold searchStep
      dsimp only
      split
      · rfl
      · split <;> rfl

/-- A regular outcome leaves the cancellation signal and the fault flag as
they were. -/
theorem searchStep_regular (n : Node δ κ) (ev : Select) (st : Stream)
    (h : regular n ev = true) :
    (searchStep n ev st).2.cancelClosed = st.cancelClosed ∧
    (searchStep n ev st).2.panicked = st.panicked := by
  cases ev with
  | ctxDone => simp [regular] at h
  | errRecv e => simp [searchStep]
  | msgRecv r =>
    cases r with
    | none => simp [searchStep]
    | some rpmes =>
      simp only [regular, Bool.and_eq_true] at h
      obtain ⟨m, hm⟩ := Option.isSome_iff_exists.mp h.1
      cases hp : n.marshalEnvelope rpmes with
      | ok p => simp [searchStep, hm, hp]
      | err e => simp [hp] at h

theorem streamLoop_regular (n : Node δ κ) (evs : List Select) :
    ∀ st : Stream, (∀ ev ∈ evs, regular n ev = true) →
      (streamLoop n evs st).cancelClosed = st.cancelClosed ∧
      (streamLoop n evs st).panicked = st.panicked := by
  induction evs with
  | nil => intro st _; simp [streamLoop]
  | cons ev evs ih =>
    intro st hreg
    obtain ⟨c1, c2⟩ := searchStep_regular n ev st (hreg ev (List.mem_cons_self _ _))
    unfold streamLoop
    split
    · rename_i st1 heq
      rw [heq] at c1 c2
      obtain ⟨d1, d2⟩ := ih st1 (fun e he => hreg e (List.mem_cons_of_mem _ he))
      exact ⟨d1.trans c1, d2.trans c2⟩
    · rename_i st1 heq
      rw [heq] at c1 c2
      exact ⟨c1, c2⟩

/-- C16, as amended: in an accepted Search request whose stream never sees the
request context fire and in which every outcome is regular (the results
channel closed, an error received, or a result that carries a message and
serializes), the cancellation signal to the query handler is not closed: it is
still open when the stream has ended, on the exit through the closed results
channel (status 200) as on the exit through a received error (status 400), and
no step faults.  A step in which the request context fires, taken on that
stream, closes the signal. -/
theorem cancel_open_without_context_done (n : Node δ κ) (g : Context) (pid : String)
    (pmes : Envelope) (evs : List Select)
    (hfrom : n.peerDecode (g.getString "from") = Res.ok pid)
    (hread : readFailed g = false)
    (hbody : n.unmarshalEnvelope g.body = Res.ok pmes)
    (h : ∀ ev ∈ evs, regular n ev = true) :
    (search n g evs).cancelClosed = false ∧
    (search n g evs).panicked = false ∧
    (search n g (evs ++ [Select.msgRecv none])).cancelClosed = false ∧
    (∀ e, (search n g (evs ++ [Select.errRecv e])).cancelClosed = false) ∧
    (searchStep n Select.ctxDone (search n g evs)).2.cancelClosed = true := by
  have hext : ∀ last, regular n last = true → ∀ ev ∈ evs ++ [last], regular n ev = true := by
    intro last hl ev hev
    rcases List.mem_append.mp hev with hin | hin
    · exact h ev hin
    · rw [List.mem_singleton.mp hin]; exact hl
  obtain ⟨k1, k2⟩ := streamLoop_regular n evs Stream.init h
  have hc : (search n g evs).cancelClosed = false := by
    rw [search_accepted n g evs pid pmes hfrom hread hbody, k1]; rfl
  refine ⟨hc, ?_, ?_, ?_, ?_⟩
  · rw [search_accepted n g evs pid pmes hfrom hread hbody, k2]; rfl
  · rw [search_accepted n g _ pid pmes hfrom hread hbody,
      (streamLoop_regular n _ Stream.init (hext (Select.msgRecv none) rfl)).1]
    rfl
  · intro e
    rw [search_accepted n g _ pid pmes hfrom hread hbody,
      (streamLoop_regular n _ Stream.init (hext (Select.errRecv e) rfl)).1]
    rfl
  · simp [searchStep, hc]


/-! ## Theorems: Store -/

theorem openedNames_append (a b : List Event) :
    openedNames (a ++ b) = openedNames a ++ openedNames b := by
  induction a with
  | nil => rfl
  | cons e es ih => cases e <;> simp [openedNames, ih]

theorem objectPins_append (a b : List Event) :
    objectPins (a ++ b) = objectPins a ++ objectPins b := by
  induction a with
  | nil => rfl
  | cons e es ih => cases e <;> simp [objectPins, ih]

theorem failedObjectPins_append (a b : List Event) :
    failedObjectPins (a ++ b) = failedObjectPins a ++ failedObjectPins b := by
  induction a with
  | nil => rfl
  | cons e es ih =>
    cases e with
    | addObject d p r => cases r <;> simp [failedObjectPins, ih]
    | _ => simp [failedObjectPins, ih]

theorem rawPins_append (a b : List Event) :
    rawPins (a ++ b) = rawPins a ++ rawPins b := by
  induction a with
  | nil => rfl
  | cons e es ih => cases e <;> simp [rawPins, ih]

theorem uploadFailures_append (a b : List Event) :
    uploadFailures (a ++ b) = uploadFailures a ++ uploadFailures b := by
  induction a with
  | nil => rfl
  | cons e es ih =>
    cases e with
    | openFile name err => cases err <;> simp [uploadFailures, ih]
    | addData d p h r => cases r <;> simp [uploadFailures, ih]
    | _ => simp [uploadFailures, ih]

/-- The loop of Store: what its trace holds, from the trace `tr` it started
with. -/
theorem storeLoop_spec (n : Node δ κ) (files : List FileHeader) :
    ∀ (k : κ) (tr : List Event),
      (∃ rest, openedNames (storeLoop n files k tr).2.2 ++ rest
        = openedNames tr ++ files.map (fun f => f.filename)) ∧
      (∃ rest, objectPins (storeLoop n files k tr).2.2 ++ rest
        = objectPins tr ++ partContents files) ∧
      (rawPins tr = failedObjectPins tr →
        rawPins (storeLoop n files k tr).2.2 = failedObjectPins (storeLoop n files k tr).2.2) ∧
      unpinCalls (storeLoop n files k tr).2.2 = unpinCalls tr ∧
      ((storeLoop n files k tr).1 = none →
        openedNames (storeLoop n files k tr).2.2
          = openedNames tr ++ files.map (fun f => f.filename) ∧
        objectPins (storeLoop n files k tr).2.2 = objectPins tr ++ partContents files ∧
        uploadFailures (storeLoop n files k tr).2.2 = uploadFailures tr) ∧
      ((storeLoop n files k tr).1 ≠ none →
        ∃ pre e, (storeLoop n files k tr).2.2 = pre ++ [e] ∧ uploadFailures [e] = [e] ∧
          uploadFailures pre = uploadFailures tr) := by
  induction files with
  | nil =>
    intro k tr
    simp [storeLoop, partContents]
  | cons file files ih =>
    intro k tr
    unfold storeLoop
    cases hop : file.opened with
    | err e =>
      simp only [partContents, hop, List.map_cons]
      refine ⟨⟨files.map (fun f => f.filename), ?_⟩, ⟨partContents files, ?_⟩, ?_, ?_, ?_, ?_⟩
      · simp [openedNames_append, openedNames]
      · simp [objectPins_append, objectPins]
      · intro h
        simp [rawPins_append, rawPins, failedObjectPins_append, failedObjectPins, h]
      · simp [unpinCalls_append, unpinCalls]
      · simp
      · intro _
        exact ⟨tr, Event.openFile file.filename (some e), rfl, by simp [uploadFailures], rfl⟩
    | ok data =>
      simp only [partContents, hop, List.map_cons]
      split
      · rename_i aid k1 _
        obtain ⟨⟨r1, h1⟩, ⟨r2, h2⟩, h3, h4, h5, h6⟩ := ih k1
          (tr ++ [Event.openFile file.filename none, Event.addObject data true (Res.ok aid)])
        simp only [openedNames_append, objectPins_append, rawPins_append,
          failedObjectPins_append, unpinCalls_append, uploadFailures_append, openedNames,
          objectPins, rawPins, failedObjectPins, unpinCalls, uploadFailures, List.append_nil,
          List.append_assoc, List.singleton_append] at h1 h2 h3 h4 h5 h6
        exact ⟨⟨r1, h1⟩, ⟨r2, h2⟩, h3, h4, h5, h6⟩
      · rename_i e k1 _
        unfold AddData
        split
        · rename_i aid k2 heq
          obtain ⟨⟨r1, h1⟩, ⟨r2, h2⟩, h3, h4, h5, h6⟩ := ih k2
            (tr ++ [Event.openFile file.filename none, Event.addObject data true (Res.err e),
              Event.addData data true false (Res.ok aid)])
          simp only [openedNames_append, objectPins_append, rawPins_append,
            failedObjectPins_append, unpinCalls_append, uploadFailures_append, openedNames,
            objectPins, rawPins, failedObjectPins, unpinCalls, uploadFailures, List.append_nil,
            List.append_assoc, List.singleton_append] at h1 h2 h3 h4 h5 h6
          refine ⟨⟨r1, h1⟩, ⟨r2, h2⟩, ?_, h4, h5, h6⟩
          intro h
          exact h3 (by rw [h])
        · rename_i e2 k2 heq
          refine ⟨⟨files.map (fun f => f.filename), ?_⟩, ⟨partContents files, ?_⟩, ?_, ?_, ?_, ?_⟩
          · simp [openedNames_append, openedNames]
          · simp [objectPins_append, objectPins]
          · intro h
            simp [rawPins_append, rawPins, failedObjectPins_append, failedObjectPins, h]
          · simp [unpinCalls_append, unpinCalls]
          · simp
          · intro _
            refine ⟨tr ++ [Event.openFile file.filename none,
              Event.addObject data true (Res.err e)],
              Event.addData data true false (Res.err e2), by simp, by simp [uploadFailures], ?_⟩
            simp [uploadFailures_append, uploadFailures]


/-- C12, as amended: for a readable multipart form, Store opens the parts in
order; each opened part is first given to the structured pin, and the raw pin
is attempted, on the same content, exactly for the parts whose structured pin
failed.  Store gives up at the first part that cannot be opened or for which
both pins fail: it responds 400, that failing call is its last call (no later
part is opened or pinned) and no unpin is issued (earlier pins are kept);
otherwise every part is processed and it responds 204. -/
theorem store_parts (n : Node δ κ) (files : List FileHeader) (s : State δ κ) :
    (∃ rest, openedNames (store n (Res.ok files) s).trace ++ rest
      = files.map (fun f => f.filename)) ∧
    (∃ rest, objectPins (store n (Res.ok files) s).trace ++ rest = partContents files) ∧
    rawPins (store n (Res.ok files) s).trace = failedObjectPins (store n (Res.ok files) s).trace ∧
    unpinCalls (store n (Res.ok files) s).trace = [] ∧
    ((store n (Res.ok files) s).reply = Reply.status 204 ∨
      (store n (Res.ok files) s).reply = Reply.status 400) ∧
    ((store n (Res.ok files) s).reply = Reply.status 204 ↔
      uploadFailures (store n (Res.ok files) s).trace = []) ∧
    ((store n (Res.ok files) s).reply = Reply.status 204 →
      openedNames (store n (Res.ok files) s).trace = files.map (fun f => f.filename) ∧
      objectPins (store n (Res.ok files) s).trace = partContents files) ∧
    ((store n (Res.ok files) s).reply = Reply.status 400 →
      ∃ pre e, (store n (Res.ok files) s).trace = pre ++ [e] ∧ uploadFailures [e] = [e] ∧
        uploadFailures pre = []) := by
  obtain ⟨⟨r1, h1⟩, ⟨r2, h2⟩, h3, h4, h5, h6⟩ := storeLoop_spec n files s.ipfs []
  simp only [openedNames, objectPins, rawPins, failedObjectPins, unpinCalls, uploadFailures,
    List.nil_append, forall_const] at h1 h2 h3 h4 h5 h6
  have hcases : ∀ r : Option Error × κ × List Event, r = storeLoop n files s.ipfs [] →
      (store n (Res.ok files) s).trace = r.2.2 ∧
      ((store n (Res.ok files) s).reply = Reply.status 204 ↔ r.1 = none) ∧
      ((store n (Res.ok files) s).reply = Reply.status 400 ↔ r.1 ≠ none) := by
    intro r hr
    unfold store
    simp only [← hr]
    rcases r with ⟨_ | e, k1, tr⟩ <;> simp [abort, StatusNoContent, StatusBadRequest]
  obtain ⟨ht, h204, h400⟩ := hcases _ rfl
  rw [ht]
  refine ⟨⟨r1, h1⟩, ⟨r2, h2⟩, h3, h4, ?_, ?_, ?_, ?_⟩
  · by_cases hn : (storeLoop n files s.ipfs []).1 = none
    · exact Or.inl (h204.mpr hn)
    · exact Or.inr (h400.mpr hn)
  · rw [h204]
    constructor
    · intro hn; exact (h5 hn).2.2
    · intro hf
      by_contra hne
      obtain ⟨pre, e, hp, he, _⟩ := h6 hne
      rw [hp, uploadFailures_append, he] at hf
      simp at hf
  · intro h
    exact ⟨(h5 (h204.mp h)).1, (h5 (h204.mp h)).2.1⟩
  · intro h
    exact h6 (h400.mp h)

/-- C20, as amended: every failure outcome of Unstore is 400: when the content
id cannot be decoded, when the pin-status lookup fails, and when an unpin
fails; Unstore never responds 500. -/
theorem unstore_failures_respond_400 (n : Node δ κ) (g : Context) (s : State δ κ) :
    (∀ e, n.cidDecode (g.param "cid") = Res.err e →
      (unstore n g s).reply = Reply.status 400) ∧
    (∀ id e, n.cidDecode (g.param "cid") = Res.ok id →
      n.checkIfPinned s.ipfs id = Res.err e → (unstore n g s).reply = Reply.status 400) ∧
    (failedUnpins (unstore n g s).trace ≠ [] → (unstore n g s).reply = Reply.status 400) ∧
    (unstore n g s).reply ≠ Reply.status 500 := by
  refine ⟨?_, ?_, ?_, ?_⟩
  · intro e he
    simp [unstore, he, abort, StatusBadRequest]
  · intro id e hid hl
    simp [unstore, hid, hl, abort, StatusBadRequest]
  · unfold unstore
    split
    · simp [abort, failedUnpins]
    · rename_i id _
      split
      · simp [abort, failedUnpins]
      · rename_i pinned _
        obtain ⟨_, h2, _⟩ :=
          unstoreLoop_calls n pinned s.ipfs [Event.checkIfPinned id (Res.ok pinned)]
        split
        · simp [abort, StatusBadRequest]
        · rename_i k1 tr heq
          rw [heq] at h2
          intro hne
          exact absurd (by simpa [failedUnpins] using (h2 rfl).2) hne
  · unfold unstore
    split
    · simp [abort, StatusBadRequest]
    · split
      · simp [abort, StatusBadRequest]
      · split <;> simp [abort, StatusBadRequest, StatusNoContent]


/-! ## Theorems: the mobile wrapper -/

/-- C21: when the core node's Start returns ErrStarted, Mobile.Start returns
nil (and starts no second subscription); every other error of the core Start
is returned unchanged; when the core Start succeeds Mobile.Start returns nil. -/
theorem mobile_start_again (e : CoreError) :
    (Mobile.Start (some ErrStarted)).err = none ∧
    (Mobile.Start (some ErrStarted)).subscribed = false ∧
    (e ≠ ErrStarted → (Mobile.Start (some e)).err = some e) ∧
    (Mobile.Start none).err = none := by
  refine ⟨by simp [Mobile.Start], by simp [Mobile.Start], ?_, rfl⟩
  intro h
  simp [Mobile.Start, h]

/-- C22: when the core node's Stop returns ErrStopped, or nil, Mobile.Stop
returns nil; every other error of the core Stop is returned unchanged. -/
theorem mobile_stop_again (e : CoreError) :
    Mobile.Stop (some ErrStopped) = none ∧
    Mobile.Stop none = none ∧
    (e ≠ ErrStopped → Mobile.Stop (some e) = some e) := by
  refine ⟨by simp [Mobile.Stop], rfl, ?_⟩
  intro h
  simp [Mobile.Stop, h]

/-- C25: `getMill` returns a result for every id and options map: "/blob"
gives the blob mill and "/image/exif" the exif mill, without error;
"/image/resize" fails with "missing width" exactly when the options hold no
non-empty "width", and otherwise gives the resize mill with that width and
the "quality" option, or "75" when that option is absent or empty; every
other id gives no mill and no error. -/
theorem getMill_cases (id : String) (opts : StrMap) :
    getMill "/blob" opts = (some Mill.Blob, none) ∧
    getMill "/image/exif" opts = (some Mill.ImageExif, none) ∧
    (getMill "/image/resize" opts = (none, some "missing width") ↔
      (opts "width" = none ∨ opts "width" = some "")) ∧
    (∀ width, opts "width" = some width → width ≠ "" →
      getMill "/image/resize" opts
        = (some (Mill.ImageResize width
            (if opts "quality" = none ∨ opts "quality" = some "" then "75"
             else opts.index "quality")), none)) ∧
    (id ≠ "/blob" → id ≠ "/image/resize" → id ≠ "/image/exif" →
      getMill id opts = (none, none)) := by
  refine ⟨by simp [getMill], by simp [getMill], ?_, ?_, ?_⟩
  · cases hw : opts "width" with
    | none => simp [getMill, StrMap.index, hw]
    | some w =>
      by_cases hwe : w = ""
      · simp [getMill, StrMap.index, hw, hwe]
      · simp [getMill, StrMap.index, hw, hwe]
  · intro width hw hne
    cases hq : opts "quality" with
    | none => simp [getMill, StrMap.index, hw, hne, hq]
    | some q =>
      by_cases hqe : q = ""
      · simp [getMill, StrMap.index, hw, hne, hq, hqe]
      · simp [getMill, StrMap.index, hw, hne, hq, hqe]
  · intro h1 h2 h3
    simp [getMill, h1, h2, h3]

/-- The streaming step applies no guard on the size of a result that carries a
message: when its serialization has length n ≥ 65536 the step reports no error
and keeps the stream open, and the chunk it writes is a 2-byte little-endian
header that encodes n mod 65536 followed by all n payload bytes, so that the
header differs from the number of payload bytes that follow. -/
theorem search_oversized_frame (n : Node δ κ) (st : Stream) (rpmes : Envelope)
    (payload : Bytes)
    (hmsg : rpmes.message ≠ none)
    (hm : n.marshalEnvelope rpmes = Res.ok payload)
    (hlen : 65536 ≤ payload.length) :
    (searchStep n (Select.msgRecv (some rpmes)) st).1 = true ∧
    (searchStep n (Select.msgRecv (some rpmes)) st).2.status = some 200 ∧
    (searchStep n (Select.msgRecv (some rpmes)) st).2.panicked = st.panicked ∧
    (searchStep n (Select.msgRecv (some rpmes)) st).2.chunks
      = st.chunks ++
        [[payload.length % 65536 % 256, payload.length % 65536 / 256 % 256] ++ payload] ∧
    (payload.length % 65536 % 256) + 256 * (payload.length % 65536 / 256 % 256)
      = payload.length % 65536 ∧
    payload.length % 65536 ≠ payload.length ∧
    ([payload.length % 65536 % 256, payload.length % 65536 / 256 % 256] ++ payload).length
      = 2 + payload.length := by
  rw [searchStep_result n st rpmes payload hmsg hm]
  refine ⟨?_, ?_, ?_, ?_, ?_, ?_, ?_⟩
  · rfl
  · rfl
  · rfl
  · simp [frame, putUint16LE, uint16]
  · omega
  · omega
  · simp only [List.length_append, List.length_cons, List.length_nil]


/-! ## Theorems: the order of the content steps -/

theorem steps_append (a b : List Event) : steps (a ++ b) = steps a ++ steps b := by
  induction a with
  | nil => rfl
  | cons e es ih => cases e <;> simp [steps, ih]

theorem stepsUpTo_shift (tr tr1 : List Event) (pre tail : List Step) (res : Result δ κ)
    (hpre : steps tr1 = steps tr ++ pre) (h : StepsUpTo tr1 tail res) :
    StepsUpTo tr (pre ++ tail) res := by
  obtain ⟨⟨rest, h1⟩, h2, h3⟩ := h
  refine ⟨⟨rest, ?_⟩, h2, ?_⟩
  · rw [h1, hpre, List.append_assoc]
  · intro hc
    rw [h3 hc, hpre, List.append_assoc]

theorem stepsUpTo_failed (tr : List Event) (e : Event) (st : Step) (tail : List Step)
    (res : Result δ κ) (htr : contentFailures tr = []) (hres : res.trace = tr ++ [e])
    (hstep : steps [e] = [st]) (hfail : contentFailures [e] = [e]) :
    StepsUpTo tr (st :: tail) res := by
  refine ⟨⟨tail, ?_⟩, fun _ => ⟨tr, e, hres, htr⟩, ?_⟩
  · rw [hres, steps_append, hstep]
    simp
  · intro hc
    rw [hres, contentFailures_append, hfail, htr] at hc
    simp at hc

theorem deliverRecord_steps (n : Node δ κ) (frm : String) (client : CafeClient)
    (now : Timestamp) (id : Cid) (db : δ) (k : κ) (tr : List Event)
    (htr : contentFailures tr = []) :
    StepsUpTo tr [] (deliverRecord n frm client now id db k tr) := by
  unfold deliverRecord StepsUpTo
  dsimp only
  split <;>
    simp [abort, steps_append, steps, contentFailures_append, contentFailures, htr]

theorem deliverEnvelope_steps (n : Node δ κ) (frm : String) (client : CafeClient)
    (now : Timestamp) (body : Bytes) (db : δ) (k : κ) (tr : List Event)
    (htr : contentFailures tr = []) :
    StepsUpTo tr [Step.pinRaw body] (deliverEnvelope n frm client now body db k tr) := by
  unfold deliverEnvelope
  split
  · rename_i e k1 _
    exact stepsUpTo_failed tr (Event.addData body true false (Res.err e)) _ [] _ htr
      (by simp [abort]) (by simp [steps]) (by simp [contentFailures])
  · rename_i id k1 _
    have h := deliverRecord_steps n frm client now id db k1
      (tr ++ [Event.addData body true false (Res.ok id)])
      (by simp [contentFailures_append, contentFailures, htr])
    exact stepsUpTo_shift tr _ [Step.pinRaw body] [] _ (by simp [steps_append, steps]) h

theorem deliverExtract_steps (n : Node δ κ) (frm : String) (client : CafeClient)
    (now : Timestamp) (body : Bytes) (tenv : ThreadEnvelope) (node : IpldNode) (db : δ) (k : κ)
    (tr : List Event) (htr : contentFailures tr = []) :
    StepsUpTo tr [Step.extract tenv.block.isNone, Step.pinRaw body]
      (deliverExtract n frm client now body tenv node db k tr) := by
  unfold deliverExtract
  dsimp only
  split
  · rename_i e k1 _
    exact stepsUpTo_failed tr (Event.extractNode node tenv.block.isNone (some e)) _ _ _ htr
      (by simp [abort]) (by simp [steps]) (by simp [contentFailures])
  · rename_i k1 _
    have h := deliverEnvelope_steps n frm client now body db k1
      (tr ++ [Event.extractNode node tenv.block.isNone none])
      (by simp [contentFailures_append, contentFailures, htr])
    exact stepsUpTo_shift tr _ [Step.extract tenv.block.isNone] [Step.pinRaw body] _
      (by simp [steps_append, steps]) h

theorem deliverPins_steps_block (n : Node δ κ) (frm : String) (client : CafeClient)
    (now : Timestamp) (body : Bytes) (tenv : ThreadEnvelope) (s : State δ κ) (block : Bytes)
    (hb : tenv.block = some block) :
    StepsUpTo [] (stepsWithBlock body tenv block) (deliverPins n frm client now body tenv s) := by
  unfold deliverPins stepsWithBlock
  simp only [hb]
  split
  · rename_i e k1 _
    exact stepsUpTo_failed [] (Event.addObject tenv.node true (Res.err e)) _ _ _ rfl
      (by simp [abort]) (by simp [steps]) (by simp [contentFailures])
  · rename_i oid k1 _
    split
    · rename_i e k2 _
      exact stepsUpTo_shift [] [Event.addObject tenv.node true (Res.ok oid)]
        [Step.pinObject tenv.node] _ _ (by simp [steps])
        (stepsUpTo_failed _ (Event.nodeAtCid oid (Res.err e)) Step.resolve _ _
          (by simp [contentFailures]) (by simp [abort]) (by simp [steps])
          (by simp [contentFailures]))
    · rename_i node k2 _
      split
      · rename_i e k3 _
        exact stepsUpTo_shift []
          ([Event.addObject tenv.node true (Res.ok oid)] ++ [Event.nodeAtCid oid (Res.ok node)])
          [Step.pinObject tenv.node, Step.resolve] _ _ (by simp [steps])
          (stepsUpTo_failed _ (Event.addData block true false (Res.err e)) (Step.pinRaw block)
            _ _ (by simp [contentFailures]) (by simp [abort]) (by simp [steps])
            (by simp [contentFailures]))
      · rename_i c k3 _
        have h := deliverExtract_steps n frm client now body tenv node s.db k3
          ([Event.addObject tenv.node true (Res.ok oid)] ++ [Event.nodeAtCid oid (Res.ok node)]
            ++ [Event.addData block true false (Res.ok c)])
          (by simp [contentFailures])
        have h2 := stepsUpTo_shift [] _ [Step.pinObject tenv.node, Step.resolve,
          Step.pinRaw block] _ _ (by simp [steps]) h
        simpa [hb] using h2

theorem deliverPins_steps_noblock (n : Node δ κ) (frm : String) (client : CafeClient)
    (now : Timestamp) (body : Bytes) (tenv : ThreadEnvelope) (s : State δ κ)
    (hb : tenv.block = none) :
    StepsUpTo [] (stepsWithoutBlock body tenv) (deliverPins n frm client now body tenv s) := by
  unfold deliverPins stepsWithoutBlock
  simp only [hb]
  split
  · rename_i e k1 _
    exact stepsUpTo_failed [] (Event.addObject tenv.node true (Res.err e)) _ _ _ rfl
      (by simp [abort]) (by simp [steps]) (by simp [contentFailures])
  · rename_i oid k1 _
    split
    · rename_i e k2 _
      exact stepsUpTo_shift [] [Event.addObject tenv.node true (Res.ok oid)]
        [Step.pinObject tenv.node] _ _ (by simp [steps])
        (stepsUpTo_failed _ (Event.nodeAtCid oid (Res.err e)) Step.resolve _ _
          (by simp [contentFailures]) (by simp [abort]) (by simp [steps])
          (by simp [contentFailures]))
    · rename_i node k2 _
      have h := deliverExtract_steps n frm client now body tenv node s.db k2
        ([Event.addObject tenv.node true (Res.ok oid)] ++ [Event.nodeAtCid oid (Res.ok node)])
        (by simp [contentFailures])
      have h2 := stepsUpTo_shift [] _ [Step.pinObject tenv.node, Step.resolve] _ _
        (by simp [steps]) h
      simpa [hb] using h2

theorem extract_succeeded_of_step (tr : List Event) (f : Bool)
    (hin : Step.extract f ∈ steps tr) (hc : contentFailures tr = []) :
    ∃ node, Event.extractNode node f none ∈ tr := by
  induction tr with
  | nil => simp [steps] at hin
  | cons e es ih =>
    cases e with
    | extractNode nd fl err =>
      cases err with
      | some x => simp [contentFailures] at hc
      | none =>
        simp only [steps, List.mem_cons, Step.extract.injEq] at hin
        simp only [contentFailures] at hc
        rcases hin with h | h
        · exact ⟨nd, by simp [h]⟩
        · obtain ⟨node, hn⟩ := ih h hc
          exact ⟨node, List.mem_cons_of_mem _ hn⟩
    | addObject d p r =>
      cases r <;> simp [contentFailures, steps] at hc hin
      obtain ⟨node, hn⟩ := ih hin hc
      exact ⟨node, List.mem_cons_of_mem _ hn⟩
    | addData d p h r =>
      cases r <;> simp [contentFailures, steps] at hc hin
      obtain ⟨node, hn⟩ := ih hin hc
      exact ⟨node, List.mem_cons_of_mem _ hn⟩
    | nodeAtCid c r =>
      cases r <;> simp [contentFailures, steps] at hc hin
      obtain ⟨node, hn⟩ := ih hin hc
      exact ⟨node, List.mem_cons_of_mem _ hn⟩
    | _ =>
      simp only [contentFailures, steps] at hc hin
      obtain ⟨node, hn⟩ := ih hin hc
      exact ⟨node, List.mem_cons_of_mem _ hn⟩

theorem steps_of_failure (e : Event) (h : contentFailures [e] ≠ []) :
    ∃ st, steps [e] = [st] := by
  cases e <;> simp [contentFailures, steps] at h ⊢

/-- When the last of the expected calls has been made, the extraction that
precedes it succeeded. -/
theorem extract_before_last (tr : List Event) (init : List Step) (last : Step) (f : Bool)
    (hfail : contentFailures tr ≠ [] → ∃ pre e, tr = pre ++ [e] ∧ contentFailures pre = [])
    (hsteps : steps tr = init ++ [last]) (hin : Step.extract f ∈ init) :
    ∃ node, Event.extractNode node f none ∈ tr := by
  by_cases hc : contentFailures tr = []
  · exact extract_succeeded_of_step tr f (by rw [hsteps]; simp [hin]) hc
  · obtain ⟨pre, e, htr, hpre⟩ := hfail hc
    have he : contentFailures [e] ≠ [] := by
      intro h
      apply hc
      rw [htr, contentFailures_append, hpre, h]
      rfl
    obtain ⟨st, hst⟩ := steps_of_failure e he
    rw [htr, steps_append, hst] at hsteps
    have hinit : steps pre = init := (List.append_inj' hsteps rfl).1
    obtain ⟨node, hn⟩ := extract_succeeded_of_step pre f (by rw [hinit]; exact hin) hpre
    exact ⟨node, by rw [htr]; exact List.mem_append_left _ hn⟩

/-- C24: in DeliverMessage, for a registered recipient and a decodable thread
envelope, the calls to the content store are an initial part of a fixed
sequence, each call being made only after the calls before it succeeded.
With a block in the envelope the sequence is: structured pin of the node,
resolution, raw pin of the block, extraction with flag false, raw pin of the
envelope.  Without a block it is: structured pin, resolution, extraction with
flag true, raw pin of the envelope, and no block pin.  In both cases, when
the envelope pin is reached the extraction has succeeded. -/
theorem deliver_step_order (n : Node δ κ) (now : Timestamp) (g : Context)
    (s : State δ κ) (client : CafeClient) (nenv : Envelope) (m : Message)
    (tenv : ThreadEnvelope)
    (hreg : n.cafeClientsGet s.db (g.param "to") = some client)
    (hread : readFailed g = false)
    (henv : n.unmarshalEnvelope g.body = Res.ok nenv)
    (hmsg : nenv.message = some m)
    (hany : n.unmarshalAny m.payload = Res.ok tenv) :
    (∀ block, tenv.block = some block →
      (∃ rest, steps (deliverMessage n now g s).trace ++ rest
        = [Step.pinObject tenv.node, Step.resolve, Step.pinRaw block, Step.extract false,
           Step.pinRaw g.body]) ∧
      (contentFailures (deliverMessage n now g s).trace = [] →
        steps (deliverMessage n now g s).trace
          = [Step.pinObject tenv.node, Step.resolve, Step.pinRaw block, Step.extract false,
             Step.pinRaw g.body]) ∧
      (steps (deliverMessage n now g s).trace
          = [Step.pinObject tenv.node, Step.resolve, Step.pinRaw block, Step.extract false,
             Step.pinRaw g.body] →
        ∃ node, Event.extractNode node false none ∈ (deliverMessage n now g s).trace)) ∧
    (tenv.block = none →
      (∃ rest, steps (deliverMessage n now g s).trace ++ rest
        = [Step.pinObject tenv.node, Step.resolve, Step.extract true, Step.pinRaw g.body]) ∧
      (contentFailures (deliverMessage n now g s).trace = [] →
        steps (deliverMessage n now g s).trace
          = [Step.pinObject tenv.node, Step.resolve, Step.extract true, Step.pinRaw g.body]) ∧
      (steps (deliverMessage n now g s).trace
          = [Step.pinObject tenv.node, Step.resolve, Step.extract true, Step.pinRaw g.body] →
        ∃ node, Event.extractNode node true none ∈ (deliverMessage n now g s).trace)) ∧
    (contentFailures (deliverMessage n now g s).trace ≠ [] →
      ∃ pre e, (deliverMessage n now g s).trace = pre ++ [e] ∧ contentFailures pre = []) := by
  rw [deliverMessage_decodable n now g s client nenv m tenv hreg hread henv hmsg hany]
  refine ⟨?_, ?_, ?_⟩
  · intro block hb
    obtain ⟨h1, h2, h3⟩ := deliverPins_steps_block n (g.param "from") client now g.body tenv s
      block hb
    simp only [steps, List.nil_append, stepsWithBlock] at h1 h3
    refine ⟨h1, h3, ?_⟩
    intro hs
    exact extract_before_last _
      [Step.pinObject tenv.node, Step.resolve, Step.pinRaw block, Step.extract false]
      (Step.pinRaw g.body) false h2 (by rw [hs]; rfl) (by simp)
  · intro hb
    obtain ⟨h1, h2, h3⟩ := deliverPins_steps_noblock n (g.param "from") client now g.body tenv s
      hb
    simp only [steps, List.nil_append, stepsWithoutBlock] at h1 h3
    refine ⟨h1, h3, ?_⟩
    intro hs
    exact extract_before_last _
      [Step.pinObject tenv.node, Step.resolve, Step.extract true]
      (Step.pinRaw g.body) true h2 (by rw [hs]; rfl) (by simp)
  · cases hb : tenv.block with
    | none =>
      exact (deliverPins_steps_noblock n (g.param "from") client now g.body tenv s hb).2.1
    | some block =>
      exact (deliverPins_steps_block n (g.param "from") client now g.body tenv s block hb).2.1


/-! ## Theorems: request options -/

theorem splitOn_length (sep : Char) (l : List Char) :
    (splitOn sep l).length = l.count sep + 1 := by
  induction l with
  | nil => rfl
  | cons c cs ih =>
    unfold splitOn
    by_cases h : c = sep
    · simp [h, ih]
    · have hbeq : (c == sep) = false := by simpa using h
      simp only [h, if_false, List.count_cons, hbeq]
      cases hs : splitOn sep cs with
      | nil => rw [hs] at ih; simp at ih
      | cons part parts => rw [hs] at ih; simpa using ih

theorem splitOn_of_absent (sep : Char) (l : List Char) (h : l.count sep = 0) :
    splitOn sep l = [l] := by
  induction l with
  | nil => rfl
  | cons c cs ih =>
    unfold splitOn
    by_cases hc : c = sep
    · simp [hc] at h
    · have hbeq : (c == sep) = false := by simpa using hc
      simp only [List.count_cons, hbeq] at h
      simp [hc, ih (by simpa using h)]

theorem splitOn_of_one (sep : Char) (l : List Char) (h : l.count sep = 1) :
    splitOn sep l
      = [l.takeWhile (fun c => c ≠ sep), (l.dropWhile (fun c => c ≠ sep)).drop 1] := by
  induction l with
  | nil => simp at h
  | cons c cs ih =>
    unfold splitOn
    by_cases hc : c = sep
    · have h0 : cs.count sep = 0 := by simpa [hc] using h
      simp [hc, splitOn_of_absent sep cs h0]
    · have hbeq : (c == sep) = false := by simpa using hc
      have h1 : cs.count sep = 1 := by simpa [List.count_cons, hbeq] using h
      simp [hc, ih h1, List.takeWhile_cons, List.dropWhile_cons]

/-- One iteration of the loop of `readOpts`, in the words of the
specification: a trimmed segment that is not empty and holds exactly one "="
sets its key to its value; any other segment is skipped. -/
theorem readOptsLoop_cons (o : List Char) (os : List (List Char)) (opts : StrMap) :
    readOptsLoop (o :: os) opts
      = if trimSpace o ≠ [] ∧ (trimSpace o).count '=' = 1 then
          readOptsLoop os (opts.set (keyValue (trimSpace o)).1 (keyValue (trimSpace o)).2)
        else readOptsLoop os opts := by
  rw [readOptsLoop]
  by_cases hne : trimSpace o = []
  · simp [hne]
  · by_cases hc : (trimSpace o).count '=' = 1
    · simp [hne, hc, splitOn_of_one '=' _ hc, keyValue]
    · have hlen := splitOn_length '=' (trimSpace o)
      simp only [ne_eq, hne, not_false_eq_true, if_true, hc, and_false, if_false]
      split
      · rename_i key value heq
        rw [heq] at hlen
        simp at hlen
        omega
      · rfl

/-- The value of a key after the loop of `readOpts`: that of the last kept
segment with this key, else the value the map held before. -/
theorem readOptsLoop_get (segs : List (List Char)) :
    ∀ (opts : StrMap) (key : String),
      readOptsLoop segs opts key
        = (((((segs.map trimSpace).filter
              (fun seg => seg ≠ [] ∧ seg.count '=' = 1)).map keyValue).reverse.find?
              (fun kv => kv.1 = key)).map (fun kv => kv.2)).or (opts key) := by
  induction segs with
  | nil => intro opts key; simp [readOptsLoop]
  | cons o os ih =>
    intro opts key
    rw [readOptsLoop_cons]
    by_cases hk : trimSpace o ≠ [] ∧ (trimSpace o).count '=' = 1
    · rw [if_pos hk, ih]
      have hf : ((List.map trimSpace (o :: os)).filter
          (fun seg => seg ≠ [] ∧ seg.count '=' = 1))
          = trimSpace o :: ((List.map trimSpace os).filter
            (fun seg => seg ≠ [] ∧ seg.count '=' = 1)) := by
        simp only [List.map_cons]
        rw [List.filter_cons_of_pos]
        simpa using hk
      rw [hf]
      simp only [List.map_cons, List.reverse_cons, List.find?_append]
      cases hfind : List.find? (fun kv => decide (kv.1 = key))
          (List.map keyValue ((List.map trimSpace os).filter
            (fun seg => seg ≠ [] ∧ seg.count '=' = 1))).reverse with
      | some kv => simp
      | none =>
        by_cases hkey : (keyValue (trimSpace o)).1 = key
        · simp [StrMap.set, hkey, List.find?]
        · have hkey2 : ¬ key = (keyValue (trimSpace o)).1 := fun h => hkey h.symm
          simp [StrMap.set, hkey, hkey2, List.find?]
    · rw [if_neg hk, ih]
      have hf : ((List.map trimSpace (o :: os)).filter
          (fun seg => seg ≠ [] ∧ seg.count '=' = 1))
          = ((List.map trimSpace os).filter
            (fun seg => seg ≠ [] ∧ seg.count '=' = 1)) := by
        simp only [List.map_cons]
        rw [List.filter_cons_of_neg]
        simpa using hk
      rw [hf]

theorem charVal_eq_iff (c : Char) (k : UInt32) : c.val = k ↔ c.toNat = k.toNat := by
  constructor
  · intro h; rw [← h]; rfl
  · intro h
    apply UInt32.ext
    exact h

theorem char_eq_iff (c d : Char) : c = d ↔ c.toNat = d.toNat := by
  constructor
  · intro h; rw [h]
  · intro h
    apply Char.ext
    apply UInt32.ext
    exact h

theorem uint32_le_iff (a b : UInt32) : a ≤ b ↔ a.toNat ≤ b.toNat := Iff.rfl

/-- The characters `isSpace` accepts are those whose code point is listed in
`whiteSpaceCodes`. -/
theorem isSpace_iff (c : Char) : isSpace c = true ↔ c.toNat ∈ whiteSpaceCodes := by
  unfold isSpace whiteSpaceCodes
  simp only [Bool.or_eq_true, Bool.and_eq_true, decide_eq_true_eq, charVal_eq_iff, char_eq_iff,
    uint32_le_iff, List.mem_cons, List.mem_singleton, List.not_mem_nil, or_false]
  have h1 : (c.val : UInt32).toNat = c.toNat := rfl
  have e1 : ('\t' : Char).toNat = 9 := rfl
  have e2 : ('\n' : Char).toNat = 10 := rfl
  have e3 : ('\r' : Char).toNat = 13 := rfl
  have e4 : (' ' : Char).toNat = 32 := rfl
  have u1 : (11 : UInt32).toNat = 11 := rfl
  have u2 : (12 : UInt32).toNat = 12 := rfl
  have u3 : (0x85 : UInt32).toNat = 133 := rfl
  have u4 : (0xA0 : UInt32).toNat = 160 := rfl
  have u5 : (0x1680 : UInt32).toNat = 5760 := rfl
  have u6 : (0x2000 : UInt32).toNat = 8192 := rfl
  have u7 : (0x200A : UInt32).toNat = 8202 := rfl
  have u8 : (0x2028 : UInt32).toNat = 8232 := rfl
  have u9 : (0x2029 : UInt32).toNat = 8233 := rfl
  have u10 : (0x202F : UInt32).toNat = 8239 := rfl
  have u11 : (0x205F : UInt32).toNat = 8287 := rfl
  have u12 : (0x3000 : UInt32).toNat = 12288 := rfl
  simp only [h1, e1, e2, e3, e4, u1, u2, u3, u4, u5, u6, u7, u8, u9, u10, u11, u12]
  omega

theorem withoutLeadingSpace_eq (l : List Char) :
    withoutLeadingSpace l = l.dropWhile isSpace := by
  induction l with
  | nil => rfl
  | cons c cs ih =>
    rw [withoutLeadingSpace, List.dropWhile_cons, ih]
    by_cases h : c.toNat ∈ whiteSpaceCodes
    · rw [if_pos h, if_pos ((isSpace_iff c).mpr h)]
    · have hs : ¬ isSpace c = true := fun hc => h ((isSpace_iff c).mp hc)
      rw [if_neg h, if_neg hs]

theorem dropWhile_concat (p : Char → Bool) (xs : List Char) (c : Char) :
    (xs ++ [c]).dropWhile p
      = match xs.dropWhile p with
        | [] => if p c = true then [] else [c]
        | d :: ds => d :: ds ++ [c] := by
  induction xs with
  | nil => simp [List.dropWhile_cons]
  | cons x xs ih =>
    by_cases hx : p x = true
    · simp only [List.cons_append, List.dropWhile_cons, hx, if_true]
      exact ih
    · simp [List.dropWhile_cons, hx]

theorem withoutTrailingSpace_eq (l : List Char) :
    withoutTrailingSpace l = (l.reverse.dropWhile isSpace).reverse := by
  induction l with
  | nil => rfl
  | cons c cs ih =>
    rw [withoutTrailingSpace, ih, List.reverse_cons, dropWhile_concat]
    cases hd : List.dropWhile isSpace cs.reverse with
    | nil =>
      by_cases h : c.toNat ∈ whiteSpaceCodes
      · simp [h, (isSpace_iff c).mpr h]
      · have hs : ¬ isSpace c = true := fun hc => h ((isSpace_iff c).mp hc)
        simp [h, hs]
    | cons d ds =>
      simp only [List.reverse_cons, List.reverse_append, List.reverse_nil, List.nil_append,
        List.singleton_append]
      cases hr : ds.reverse ++ [d] with
      | nil => simp at hr
      | cons e es => simp [List.cons_append]

/-- Function `strings.TrimSpace`, as embedded, trims as the specification
words it. -/
theorem trimSpace_eq_trimmed (l : List Char) : trimSpace l = trimmed l := by
  rw [trimmed, withoutTrailingSpace_eq, withoutLeadingSpace_eq, trimSpace]

/-- What trimming removes: a segment is its trimmed form between two runs of
white space, and the trimmed form neither starts nor ends with white space. -/
theorem trimmed_spec (seg : List Char) :
    ∃ pre post, seg = pre ++ trimmed seg ++ post ∧
      (∀ c ∈ pre, c.toNat ∈ whiteSpaceCodes) ∧ (∀ c ∈ post, c.toNat ∈ whiteSpaceCodes) ∧
      (∀ c, (trimmed seg).head? = some c → c.toNat ∉ whiteSpaceCodes) ∧
      (∀ c, (trimmed seg).getLast? = some c → c.toNat ∉ whiteSpaceCodes) := by
  have hhead : ∀ (l : List Char) (c : Char), (l.dropWhile isSpace).head? = some c →
      ¬ isSpace c = true := by
    intro l
    induction l with
    | nil => intro c h; simp at h
    | cons x xs ih =>
      intro c h
      rw [List.dropWhile_cons] at h
      by_cases hx : isSpace x = true
      · rw [if_pos hx] at h; exact ih c h
      · rw [if_neg hx] at h
        simp at h
        rw [← h]; exact hx
  have hsplit : seg.dropWhile isSpace
      = trimmed seg ++ ((seg.dropWhile isSpace).reverse.takeWhile isSpace).reverse := by
    rw [← trimSpace_eq_trimmed, trimSpace, ← List.reverse_append, List.takeWhile_append_dropWhile,
      List.reverse_reverse]
  refine ⟨seg.takeWhile isSpace, ((seg.dropWhile isSpace).reverse.takeWhile isSpace).reverse,
    ?_, ?_, ?_, ?_, ?_⟩
  · rw [List.append_assoc, ← hsplit, List.takeWhile_append_dropWhile]
  · intro c hc
    exact (isSpace_iff c).mp (List.mem_takeWhile_imp hc)
  · intro c hc
    exact (isSpace_iff c).mp (List.mem_takeWhile_imp (List.mem_reverse.mp hc))
  · intro c hc hw
    have hne : trimmed seg ≠ [] := by
      intro he; rw [he] at hc; simp at hc
    have : (seg.dropWhile isSpace).head? = some c := by
      rw [hsplit, List.head?_append_of_ne_nil _ hne]; exact hc
    exact hhead seg c this ((isSpace_iff c).mpr hw)
  · intro c hc hw
    rw [← trimSpace_eq_trimmed, trimSpace, List.getLast?_reverse] at hc
    exact hhead _ c hc ((isSpace_iff c).mpr hw)

/-- C26: `readOpts` never fails, and for every header value the map it
returns gives to each key the value of the last segment with that key among
the segments the specification keeps: the header split at commas, each
segment trimmed, those that are not empty and hold exactly one "=", read as
the text before the "=" and the text after it; segments with no "=" or with
two or more are dropped.  Trimming is the specification's own: a segment is
its trimmed form between two runs of white space, and the trimmed form neither
starts nor ends with white space. -/
theorem readOpts_spec (header : String) (key : String) :
    (readOpts header).2 = none ∧
    (readOpts header).1 key = optsOf header key ∧
    (∀ seg ∈ splitOn ',' header.toList,
      ∃ pre post, seg = pre ++ trimmed seg ++ post ∧
        (∀ c ∈ pre, c.toNat ∈ whiteSpaceCodes) ∧ (∀ c ∈ post, c.toNat ∈ whiteSpaceCodes) ∧
        (∀ c, (trimmed seg).head? = some c → c.toNat ∉ whiteSpaceCodes) ∧
        (∀ c, (trimmed seg).getLast? = some c → c.toNat ∉ whiteSpaceCodes)) ∧
    (∀ seg ∈ keptSegments header,
      seg ≠ [] ∧ seg.count '=' = 1 ∧ ∃ o ∈ splitOn ',' header.toList, seg = trimmed o) := by
  refine ⟨rfl, ?_, fun seg _ => trimmed_spec seg, ?_⟩
  · unfold readOpts optsOf keptSegments
    dsimp only
    rw [readOptsLoop_get]
    have hmap : (splitOn ',' header.toList).map trimSpace
        = (splitOn ',' header.toList).map trimmed :=
      List.map_congr_left (fun l _ => trimSpace_eq_trimmed l)
    rw [hmap]
    simp [StrMap.empty]
  · intro seg hseg
    unfold keptSegments at hseg
    obtain ⟨hmem, hkeep⟩ := List.mem_filter.mp hseg
    obtain ⟨o, ho, rfl⟩ := List.mem_map.mp hmem
    have hk : trimmed o ≠ [] ∧ (trimmed o).count '=' = 1 := by simpa using hkeep
    exact ⟨hk.1, hk.2, o, ho, rfl⟩


/-! ## Evaluations on the example node -/

/-- C6, counterexample: the lookup returns two pinned records and a stale one,
the unpin of the first fails; Unstore responds 400 and never unpins the
second record, although its mode is not NotPinned. -/
theorem unstore_stops_at_failed_unpin :
    exampleNode.cidDecode ((exampleCtx "" "" "" "" "Qm1" []).param "cid")
      = Res.ok { codec := 85, hash := "Qm1" } ∧
    exampleNode.checkIfPinned [lockedPin, stalePin, directPin] { codec := 85, hash := "Qm1" }
      = Res.ok [lockedPin, stalePin, directPin] ∧
    pinnedKeys [lockedPin, stalePin, directPin] = [lockedPin.key, directPin.key] ∧
    (unstore exampleNode (exampleCtx "" "" "" "" "Qm1" [])
      ⟨exampleDb, [lockedPin, stalePin, directPin]⟩).reply = Reply.status 400 ∧
    unpinCalls (unstore exampleNode (exampleCtx "" "" "" "" "Qm1" [])
      ⟨exampleDb, [lockedPin, stalePin, directPin]⟩).trace = [lockedPin.key] ∧
    ¬ (unpinCalls (unstore exampleNode (exampleCtx "" "" "" "" "Qm1" [])
      ⟨exampleDb, [lockedPin, stalePin, directPin]⟩).trace
        = pinnedKeys [lockedPin, stalePin, directPin]) := by
  decide

/-- C10, failing input: a registered recipient and the empty body, which
decodes as an Envelope that carries no message; the handler reads
`nenv.Message.Payload` and panics instead of responding 400. -/
theorem deliver_envelope_without_message_panics :
    exampleNode.unmarshalEnvelope (exampleCtx "" "" "bob" "alice" "" []).body
      = Res.ok { message := none, sig := [] } ∧
    (deliverMessage exampleNode ⟨1700000000, 0⟩ (exampleCtx "" "" "bob" "alice" "" [])
      ⟨exampleDb, []⟩).reply = Reply.panic := by
  decide


/-- Witness of C8: the sender "mallory" is not registered in the example store. -/
theorem forbidden_without_client_witness :
    exampleNode.cafeClientsGet exampleDb
      ((exampleCtx "mallory" "t1" "" "" "" [1, 2]).getString "from") = none ∧
    (storeThread exampleNode (exampleCtx "mallory" "t1" "" "" "" [1, 2])
      ⟨exampleDb, []⟩).reply = Reply.status 403 ∧
    (unstoreThread exampleNode (exampleCtx "mallory" "t1" "" "" "" [1, 2])
      ⟨exampleDb, []⟩).reply = Reply.status 403 :=
  ⟨by decide,
   (forbidden_without_client exampleNode (exampleCtx "mallory" "t1" "" "" "" [1, 2])
      ⟨exampleDb, []⟩ (by decide)).1.1,
   (forbidden_without_client exampleNode (exampleCtx "mallory" "t1" "" "" "" [1, 2])
      ⟨exampleDb, []⟩ (by decide)).2.1⟩

/-- Witness of C2: the recipient "nobody" is not registered in the example store. -/
theorem deliver_unknown_recipient_witness :
    exampleNode.cafeClientsGet exampleDb
      ((exampleCtx "" "" "bob" "nobody" "" [10, 1, 2]).param "to") = none ∧
    (deliverMessage exampleNode ⟨1700000000, 0⟩ (exampleCtx "" "" "bob" "nobody" "" [10, 1, 2])
      ⟨exampleDb, []⟩).reply = Reply.status 200 ∧
    (deliverMessage exampleNode ⟨1700000000, 0⟩ (exampleCtx "" "" "bob" "nobody" "" [10, 1, 2])
      ⟨exampleDb, []⟩).trace = [] :=
  ⟨by decide,
   (deliver_unknown_recipient exampleNode ⟨1700000000, 0⟩
      (exampleCtx "" "" "bob" "nobody" "" [10, 1, 2]) ⟨exampleDb, []⟩ (by decide)).1,
   (deliver_unknown_recipient exampleNode ⟨1700000000, 0⟩
      (exampleCtx "" "" "bob" "nobody" "" [10, 1, 2]) ⟨exampleDb, []⟩ (by decide)).2.1⟩

/-- Witness of C3: the body `[7]` does not decode as an Envelope. -/
theorem deliver_undecodable_body_witness :
    exampleNode.cafeClientsGet exampleDb
      ((exampleCtx "" "" "bob" "alice" "" [7]).param "to") = some alice ∧
    exampleNode.unmarshalEnvelope (exampleCtx "" "" "bob" "alice" "" [7]).body
      = Res.err "proto: cannot parse" ∧
    (deliverMessage exampleNode ⟨1700000000, 0⟩ (exampleCtx "" "" "bob" "alice" "" [7])
      ⟨exampleDb, []⟩).reply = Reply.status 400 ∧
    (deliverMessage exampleNode ⟨1700000000, 0⟩ (exampleCtx "" "" "bob" "alice" "" [7])
      ⟨exampleDb, []⟩).db = exampleDb :=
  ⟨by decide, by decide,
   (deliver_undecodable_body exampleNode ⟨1700000000, 0⟩ (exampleCtx "" "" "bob" "alice" "" [7])
      ⟨exampleDb, []⟩ alice "proto: cannot parse" (by decide) (by decide)).1,
   (deliver_undecodable_body exampleNode ⟨1700000000, 0⟩ (exampleCtx "" "" "bob" "alice" "" [7])
      ⟨exampleDb, []⟩ alice "proto: cannot parse" (by decide) (by decide)).2.2.2.1⟩

/-- Witness of C1: "alice" stores thread "t1" with body `[1]`, then `[2, 3]`. -/
theorem storeThread_twice_witness :
    exampleDb.getClient ((exampleCtx "alice" "t1" "" "" "" []).getString "from") = some alice ∧
    (storeThread (withDatastore exampleBase)
      { exampleCtx "alice" "t1" "" "" "" [] with body := [2, 3], readErr := none }
      ⟨(storeThread (withDatastore exampleBase)
          { exampleCtx "alice" "t1" "" "" "" [] with body := [1], readErr := none }
          ⟨exampleDb, []⟩).db,
       (storeThread (withDatastore exampleBase)
          { exampleCtx "alice" "t1" "" "" "" [] with body := [1], readErr := none }
          ⟨exampleDb, []⟩).ipfs⟩).db.threadsAt
        ((exampleCtx "alice" "t1" "" "" "" []).param "id") alice.id
      = [{ id := (exampleCtx "alice" "t1" "" "" "" []).param "id", client := alice.id,
           ciphertext := [2, 3] }] :=
  ⟨by decide,
   (storeThread_twice exampleBase (exampleCtx "alice" "t1" "" "" "" []) [1] [2, 3] exampleDb []
      alice (by decide)).2.2⟩

/-- Witness of C7: the example store holds no thread snapshot for "alice". -/
theorem unstoreThread_absent_witness :
    exampleDb.getClient ((exampleCtx "alice" "t1" "" "" "" []).getString "from") = some alice ∧
    exampleDb.threadsAt ((exampleCtx "alice" "t1" "" "" "" []).param "id") alice.id = [] ∧
    (unstoreThread (withDatastore exampleBase) (exampleCtx "alice" "t1" "" "" "" [])
      ⟨exampleDb, []⟩).reply = Reply.status 204 :=
  ⟨by decide, by decide,
   (unstoreThread_absent exampleBase (exampleCtx "alice" "t1" "" "" "" []) exampleDb []
      alice (by decide) (by decide)).1⟩

/-- Witness of C9: "bob" delivers the envelope `[10, 1, 2]` to "alice". -/
theorem deliver_success_record_witness :
    exampleNode.cafeClientsGet exampleDb
      ((exampleCtx "" "" "bob" "alice" "" [10, 1, 2]).param "to") = some alice ∧
    (deliverMessage exampleNode ⟨1700000000, 0⟩ (exampleCtx "" "" "bob" "alice" "" [10, 1, 2])
      ⟨exampleDb, []⟩).reply = Reply.status 200 ∧
    (∃ id : Cid,
      Event.addData (exampleCtx "" "" "bob" "alice" "" [10, 1, 2]).body true false (Res.ok id)
        ∈ (deliverMessage exampleNode ⟨1700000000, 0⟩
            (exampleCtx "" "" "bob" "alice" "" [10, 1, 2]) ⟨exampleDb, []⟩).trace ∧
      messageUpserts (deliverMessage exampleNode ⟨1700000000, 0⟩
          (exampleCtx "" "" "bob" "alice" "" [10, 1, 2]) ⟨exampleDb, []⟩).trace
        = [{ id := id.hash, peer := (exampleCtx "" "" "bob" "alice" "" [10, 1, 2]).param "from",
             client := alice.id, date := ⟨1700000000, 0⟩ }] ∧
      Event.messagesAddOrUpdate
        { id := id.hash, peer := (exampleCtx "" "" "bob" "alice" "" [10, 1, 2]).param "from",
          client := alice.id, date := ⟨1700000000, 0⟩ } none
        ∈ (deliverMessage exampleNode ⟨1700000000, 0⟩
            (exampleCtx "" "" "bob" "alice" "" [10, 1, 2]) ⟨exampleDb, []⟩).trace) :=
  ⟨by decide, by decide,
   deliver_success_record exampleNode ⟨1700000000, 0⟩
      (exampleCtx "" "" "bob" "alice" "" [10, 1, 2]) ⟨exampleDb, []⟩ alice
      (by decide) (by decide)⟩

/-- Witness of C4: "bob" delivers the envelope `[10, 1, 2]` to "alice" twice. -/
theorem deliver_twice_dedup_witness :
    (deliverMessage (withDatastore exampleBase) ⟨1700000060, 0⟩
      (exampleCtx "" "" "bob" "alice" "" [10, 1, 2])
      ⟨(deliverMessage (withDatastore exampleBase) ⟨1700000000, 0⟩
          (exampleCtx "" "" "bob" "alice" "" [10, 1, 2]) ⟨exampleDb, []⟩).db,
       (deliverMessage (withDatastore exampleBase) ⟨1700000000, 0⟩
          (exampleCtx "" "" "bob" "alice" "" [10, 1, 2]) ⟨exampleDb, []⟩).ipfs⟩).db.messagesAt
        (exampleBase.cidOfData (exampleCtx "" "" "bob" "alice" "" [10, 1, 2]).body).hash alice.id
      = [{ id := (exampleBase.cidOfData (exampleCtx "" "" "bob" "alice" "" [10, 1, 2]).body).hash,
           peer := (exampleCtx "" "" "bob" "alice" "" [10, 1, 2]).param "from",
           client := alice.id, date := ⟨1700000060, 0⟩ }] :=
  (deliver_twice_dedup exampleBase ⟨1700000000, 0⟩ ⟨1700000060, 0⟩
    (exampleCtx "" "" "bob" "alice" "" [10, 1, 2]) exampleDb [] alice
    (by decide) (by decide) (by decide)).2.2

/-- The framing round trip at two results that carry a message, serialized as
`[1, 2, 3]` and the empty payload. -/
theorem search_frames_roundtrip_example :
    readFrames (search exampleNode (exampleCtx "bob" "" "" "" "" [10, 1])
      ([exampleEnvelope 1 "/Result" [1, 2, 3], exampleEnvelope 1 "/Result" []].map
          (fun r => Select.msgRecv (some r)) ++ [Select.msgRecv none])).bytes
      = some [[1, 2, 3], []] :=
  search_frames_roundtrip exampleNode (exampleCtx "bob" "" "" "" "" [10, 1]) "bob"
    (exampleEnvelope 1 "/ThreadEnvelope" [1])
    [exampleEnvelope 1 "/Result" [1, 2, 3], exampleEnvelope 1 "/Result" []] [[1, 2, 3], []]
    (by decide) (by decide) (by decide)
    (List.Forall₂.cons ⟨by decide, rfl, by decide⟩
      (List.Forall₂.cons ⟨by decide, rfl, by decide⟩ List.Forall₂.nil))

/-- C5, failing input: the query handler produces one result whose `Message`
is nil and then closes.  The result serializes to the 3 bytes `[1, 2, 3]`, yet
the step panics on it before serializing: Search writes no byte, and reading
its output with the inverse framing gives the empty list, not the list of the
serialized results. -/
theorem search_roundtrip_fails_without_message :
    exampleNode.marshalEnvelope bareResult = Res.ok [1, 2, 3] ∧
    (search exampleNode (exampleCtx "bob" "" "" "" "" [10, 1])
      [Select.msgRecv (some bareResult), Select.msgRecv none]).panicked = true ∧
    (search exampleNode (exampleCtx "bob" "" "" "" "" [10, 1])
      [Select.msgRecv (some bareResult), Select.msgRecv none]).bytes = [] ∧
    readFrames (search exampleNode (exampleCtx "bob" "" "" "" "" [10, 1])
      [Select.msgRecv (some bareResult), Select.msgRecv none]).bytes = some [] ∧
    ¬ (readFrames (search exampleNode (exampleCtx "bob" "" "" "" "" [10, 1])
      [Select.msgRecv (some bareResult), Select.msgRecv none]).bytes = some [[1, 2, 3]]) := by
  decide

/-- Witness of C6 as amended: the lookup returns a stale record and a pinned
one; and the lookup returns a pinned record, one whose unpin fails, a stale
one and a further pinned one. -/
theorem unstore_unpin_calls_witness :
    exampleNode.cidDecode ((exampleCtx "" "" "" "" "Qm1" []).param "cid")
      = Res.ok { codec := 85, hash := "Qm1" } ∧
    exampleNode.checkIfPinned [stalePin, directPin] { codec := 85, hash := "Qm1" }
      = Res.ok [stalePin, directPin] ∧
    ((unstore exampleNode (exampleCtx "" "" "" "" "Qm1" []) ⟨exampleDb, [stalePin, directPin]⟩).reply
        = Reply.status 204 →
      unpinCalls (unstore exampleNode (exampleCtx "" "" "" "" "Qm1" [])
        ⟨exampleDb, [stalePin, directPin]⟩).trace = pinnedKeys [stalePin, directPin]) ∧
    (unstore exampleNode (exampleCtx "" "" "" "" "Qm1" [])
      ⟨exampleDb, [directPin, lockedPin, stalePin, directPin]⟩).reply = Reply.status 400 ∧
    (∃ done failed skipped e,
      pinnedKeys [directPin, lockedPin, stalePin, directPin] = done ++ failed :: skipped ∧
      (unstore exampleNode (exampleCtx "" "" "" "" "Qm1" [])
        ⟨exampleDb, [directPin, lockedPin, stalePin, directPin]⟩).trace
        = Event.checkIfPinned { codec := 85, hash := "Qm1" }
            (Res.ok [directPin, lockedPin, stalePin, directPin]) ::
            (done.map (fun key => Event.unpinCid key true none)
              ++ [Event.unpinCid failed true (some e)]) ∧
      unpinCalls (unstore exampleNode (exampleCtx "" "" "" "" "Qm1" [])
        ⟨exampleDb, [directPin, lockedPin, stalePin, directPin]⟩).trace = done ++ [failed] ∧
      failedUnpins (unstore exampleNode (exampleCtx "" "" "" "" "Qm1" [])
        ⟨exampleDb, [directPin, lockedPin, stalePin, directPin]⟩).trace = [failed]) :=
  ⟨by decide, by decide,
   (unstore_unpin_calls exampleNode (exampleCtx "" "" "" "" "Qm1" [])
      ⟨exampleDb, [stalePin, directPin]⟩ { codec := 85, hash := "Qm1" } [stalePin, directPin]
      (by decide) (by decide)).2.2.2.1,
   by decide,
   (unstore_unpin_calls exampleNode (exampleCtx "" "" "" "" "Qm1" [])
      ⟨exampleDb, [directPin, lockedPin, stalePin, directPin]⟩ { codec := 85, hash := "Qm1" }
      [directPin, lockedPin, stalePin, directPin]
      (by decide) (by decide)).2.2.2.2.2.2 (by decide)⟩


/-! ## Evaluations for the content steps, Store, Search and Unstore -/

/-- C12, counterexample: the first part of the form cannot be opened; no pin
is attempted, so no part has both pins fail, and yet Store responds 400, not
204; the second part is never opened. -/
theorem store_unopenable_part :
    (store exampleNode
      (Res.ok [{ filename := "a.bin", opened := Res.err "open a.bin: no such file" },
        { filename := "b.bin", opened := Res.ok [1] }]) ⟨exampleDb, []⟩).reply
      = Reply.status 400 ∧
    pinCalls (store exampleNode
      (Res.ok [{ filename := "a.bin", opened := Res.err "open a.bin: no such file" },
        { filename := "b.bin", opened := Res.ok [1] }]) ⟨exampleDb, []⟩).trace = [] ∧
    ¬ ((store exampleNode
      (Res.ok [{ filename := "a.bin", opened := Res.err "open a.bin: no such file" },
        { filename := "b.bin", opened := Res.ok [1] }]) ⟨exampleDb, []⟩).reply
      = Reply.status 204) := by
  decide

/-- C14, counterexample: a result arrives that carries a message and whose
serialization fails; the step writes no frame, sets 500 and ends the stream. -/
theorem search_step_unserializable_result :
    (exampleEnvelope 1 "/Result" [1, 2, 3]).message ≠ none ∧
    faultyNode.marshalEnvelope (exampleEnvelope 1 "/Result" [1, 2, 3])
      = Res.err "proto: marshal failed" ∧
    (searchStep faultyNode (Select.msgRecv (some (exampleEnvelope 1 "/Result" [1, 2, 3])))
      Stream.init).1 = false ∧
    (searchStep faultyNode (Select.msgRecv (some (exampleEnvelope 1 "/Result" [1, 2, 3])))
      Stream.init).2.chunks = [] ∧
    (searchStep faultyNode (Select.msgRecv (some (exampleEnvelope 1 "/Result" [1, 2, 3])))
      Stream.init).2.status = some 500 := by
  decide

/-- C15, failing input: the request context fires, then a result is received.
The step that closes `cancel` returns true, so the stream stays open and the
frame of the result is written after the cancellation; if the context case
fires again the step closes the closed channel and panics. -/
theorem search_step_continues_after_cancel :
    (searchStep exampleNode Select.ctxDone Stream.init).1 = true ∧
    (searchStep exampleNode Select.ctxDone Stream.init).2.cancelClosed = true ∧
    (streamLoop exampleNode
      [Select.ctxDone, Select.msgRecv (some (exampleEnvelope 1 "/Result" [1, 2, 3]))]
      Stream.init).chunks = [[3, 0, 1, 2, 3]] ∧
    (streamLoop exampleNode [Select.ctxDone, Select.ctxDone] Stream.init).panicked = true := by
  decide

/-- C16, counterexample: accepted Search requests whose streams end because
the results channel is closed, because an error is received, or because a
result does not serialize; in each the cancellation signal has not been closed
when the stream has ended (third component of the final stream: chunks,
status, cancel closed, panicked), so it has not been closed exactly once. -/
theorem cancel_left_open_on_exit :
    (search exampleNode (exampleCtx "bob" "" "" "" "" [10, 1])
      [Select.msgRecv (some (exampleEnvelope 1 "/Result" [1, 2, 3])), Select.msgRecv none])
      = ⟨[[3, 0, 1, 2, 3]], some 200, false, false⟩ ∧
    (search exampleNode (exampleCtx "bob" "" "" "" "" [10, 1])
      [Select.errRecv "query failed", Select.msgRecv none])
      = ⟨[], some 400, false, false⟩ ∧
    (search faultyNode (exampleCtx "bob" "" "" "" "" [10, 1])
      [Select.msgRecv (some (exampleEnvelope 1 "/Result" [1, 2, 3])), Select.msgRecv none])
      = ⟨[], some 500, false, false⟩ := by
  decide

/-- C17, counterexample: the body `[7]` does not decode; no call to the content
store or the mailbox store fails (none is made), and the reply is 200 when the
recipient is unknown but 400 when it is registered. -/
theorem deliver_reply_reveals_registration :
    exampleNode.cafeClientsGet emptyDb ((exampleCtx "" "" "bob" "alice" "" [7]).param "to")
      = none ∧
    exampleNode.cafeClientsGet exampleDb ((exampleCtx "" "" "bob" "alice" "" [7]).param "to")
      = some alice ∧
    (deliverMessage exampleNode ⟨1700000000, 0⟩ (exampleCtx "" "" "bob" "alice" "" [7])
      ⟨emptyDb, []⟩).reply = Reply.status 200 ∧
    (deliverMessage exampleNode ⟨1700000000, 0⟩ (exampleCtx "" "" "bob" "alice" "" [7])
      ⟨exampleDb, []⟩).reply = Reply.status 400 ∧
    contentFailures (deliverMessage exampleNode ⟨1700000000, 0⟩
      (exampleCtx "" "" "bob" "alice" "" [7]) ⟨exampleDb, []⟩).trace = [] ∧
    storeFailures (deliverMessage exampleNode ⟨1700000000, 0⟩
      (exampleCtx "" "" "bob" "alice" "" [7]) ⟨exampleDb, []⟩).trace = [] ∧
    ¬ ((deliverMessage exampleNode ⟨1700000000, 0⟩ (exampleCtx "" "" "bob" "alice" "" [7])
        ⟨emptyDb, []⟩).reply
      = (deliverMessage exampleNode ⟨1700000000, 0⟩ (exampleCtx "" "" "bob" "alice" "" [7])
        ⟨exampleDb, []⟩).reply) := by
  decide

/-- C20, counterexample: the content store fails during the pin-status lookup
(first node) and during an unpin (second node); Unstore responds 400 in both
cases, not 500. -/
theorem unstore_store_failure_is_400 :
    faultyNode.checkIfPinned [directPin] { codec := 85, hash := "Qm1" }
      = Res.err "pinner unavailable" ∧
    (unstore faultyNode (exampleCtx "" "" "" "" "Qm1" []) ⟨exampleDb, [directPin]⟩).reply
      = Reply.status 400 ∧
    failedUnpins (unstore exampleNode (exampleCtx "" "" "" "" "Qm1" [])
      ⟨exampleDb, [lockedPin]⟩).trace = [lockedPin.key] ∧
    (unstore exampleNode (exampleCtx "" "" "" "" "Qm1" []) ⟨exampleDb, [lockedPin]⟩).reply
      = Reply.status 400 ∧
    ¬ ((unstore faultyNode (exampleCtx "" "" "" "" "Qm1" []) ⟨exampleDb, [directPin]⟩).reply
      = Reply.status 500) ∧
    ¬ ((unstore exampleNode (exampleCtx "" "" "" "" "Qm1" []) ⟨exampleDb, [lockedPin]⟩).reply
      = Reply.status 500) := by
  decide


/-- Witness of C11: the envelope `[10]` carries a thread envelope with an empty
node, which the structured pin rejects. -/
theorem deliver_content_failure_witness :
    contentFailures (deliverMessage exampleNode ⟨1700000000, 0⟩
      (exampleCtx "" "" "bob" "alice" "" [10]) ⟨exampleDb, []⟩).trace ≠ [] ∧
    (deliverMessage exampleNode ⟨1700000000, 0⟩ (exampleCtx "" "" "bob" "alice" "" [10])
      ⟨exampleDb, []⟩).reply = Reply.status 400 ∧
    messageUpserts (deliverMessage exampleNode ⟨1700000000, 0⟩
      (exampleCtx "" "" "bob" "alice" "" [10]) ⟨exampleDb, []⟩).trace = [] ∧
    notifications (deliverMessage exampleNode ⟨1700000000, 0⟩
      (exampleCtx "" "" "bob" "alice" "" [10]) ⟨exampleDb, []⟩).trace = [] ∧
    (deliverMessage exampleNode ⟨1700000000, 0⟩ (exampleCtx "" "" "bob" "alice" "" [10])
      ⟨exampleDb, []⟩).db = exampleDb :=
  ⟨by decide,
   (deliver_content_failure exampleNode ⟨1700000000, 0⟩ (exampleCtx "" "" "bob" "alice" "" [10])
      ⟨exampleDb, []⟩ alice (exampleEnvelope 1 "/ThreadEnvelope" [])
      { type := 1, payload := some { typeUrl := "/ThreadEnvelope", value := [] } }
      { thread := "t", node := [], block := none }
      (by decide) (by decide) (by decide) (by decide)).1 (by decide)⟩

/-- Witness of C12 as amended: two parts, the second of which is not a
structured object and is pinned raw. -/
theorem store_parts_witness :
    (store exampleNode (Res.ok [{ filename := "a.bin", opened := Res.ok [1] },
      { filename := "b.bin", opened := Res.ok [] }]) ⟨exampleDb, []⟩).reply
      = Reply.status 204 ∧
    openedNames (store exampleNode (Res.ok [{ filename := "a.bin", opened := Res.ok [1] },
      { filename := "b.bin", opened := Res.ok [] }]) ⟨exampleDb, []⟩).trace
      = ["a.bin", "b.bin"] ∧
    objectPins (store exampleNode (Res.ok [{ filename := "a.bin", opened := Res.ok [1] },
      { filename := "b.bin", opened := Res.ok [] }]) ⟨exampleDb, []⟩).trace
      = [[1], []] :=
  ⟨by decide,
   (store_parts exampleNode [{ filename := "a.bin", opened := Res.ok [1] },
      { filename := "b.bin", opened := Res.ok [] }] ⟨exampleDb, []⟩).2.2.2.2.2.2.1 (by decide)⟩

/-- The chunks of Search at two results that carry a message, serialized as
`[1, 2, 3]` and `[9]`. -/
theorem search_writes_frames_example :
    (search exampleNode (exampleCtx "bob" "" "" "" "" [10, 1])
      ([exampleEnvelope 1 "/Result" [1, 2, 3], exampleEnvelope 1 "/Result" [9]].map
        (fun r => Select.msgRecv (some r)))).chunks
      = [[1, 2, 3], [9]].map (fun p => [p.length % 256, p.length / 256] ++ p) :=
  (search_writes_frames exampleNode (exampleCtx "bob" "" "" "" "" [10, 1]) "bob"
    (exampleEnvelope 1 "/ThreadEnvelope" [1])
    [exampleEnvelope 1 "/Result" [1, 2, 3], exampleEnvelope 1 "/Result" [9]] [[1, 2, 3], [9]]
    (by decide) (by decide) (by decide)
    (List.Forall₂.cons ⟨by decide, rfl, by decide⟩
      (List.Forall₂.cons ⟨by decide, rfl, by decide⟩ List.Forall₂.nil))).1

/-- C13, failing input: the results channel delivers a result that carries a
message, serialized as `[9]`, and then a result whose `Message` is nil,
serialized as `[1, 2, 3]`.  Search writes the chunk of the first result only:
the step panics on the second before serializing it, so the bytes written are
not the concatenation of one chunk per result. -/
theorem search_writes_no_chunk_without_message :
    exampleNode.marshalEnvelope (exampleEnvelope 1 "/Result" [9]) = Res.ok [9] ∧
    exampleNode.marshalEnvelope bareResult = Res.ok [1, 2, 3] ∧
    (search exampleNode (exampleCtx "bob" "" "" "" "" [10, 1])
      [Select.msgRecv (some (exampleEnvelope 1 "/Result" [9])),
       Select.msgRecv (some bareResult)]).chunks = [[1, 0, 9]] ∧
    (search exampleNode (exampleCtx "bob" "" "" "" "" [10, 1])
      [Select.msgRecv (some (exampleEnvelope 1 "/Result" [9])),
       Select.msgRecv (some bareResult)]).panicked = true ∧
    ¬ ((search exampleNode (exampleCtx "bob" "" "" "" "" [10, 1])
      [Select.msgRecv (some (exampleEnvelope 1 "/Result" [9])),
       Select.msgRecv (some bareResult)]).bytes = [1, 0, 9] ++ [3, 0, 1, 2, 3]) := by
  decide

/-- Witness of C14 as amended: a result that carries a message and serializes
to `[1, 2, 3]`. -/
theorem search_step_outcomes_witness :
    (exampleEnvelope 1 "/Result" [1, 2, 3]).message ≠ none ∧
    exampleNode.marshalEnvelope (exampleEnvelope 1 "/Result" [1, 2, 3]) = Res.ok [1, 2, 3] ∧
    (searchStep exampleNode (Select.msgRecv (some (exampleEnvelope 1 "/Result" [1, 2, 3])))
      Stream.init).1 = true ∧
    (searchStep exampleNode (Select.msgRecv (some (exampleEnvelope 1 "/Result" [1, 2, 3])))
      Stream.init).2.status = some 200 ∧
    (searchStep exampleNode (Select.msgRecv (some (exampleEnvelope 1 "/Result" [1, 2, 3])))
      Stream.init).2.panicked = Stream.init.panicked ∧
    (searchStep exampleNode (Select.msgRecv (some (exampleEnvelope 1 "/Result" [1, 2, 3])))
      Stream.init).2.chunks = Stream.init.chunks ++ [frame [1, 2, 3]] :=
  ⟨by decide, by decide,
   (search_step_outcomes exampleNode Stream.init "query failed"
      (exampleEnvelope 1 "/Result" [1, 2, 3])).2.2.1 [1, 2, 3] (by decide) (by decide)⟩

/-- Witness of C16 as amended: an accepted request whose stream delivers one
result that carries a message and ends when the results channel is closed. -/
theorem cancel_open_without_context_done_witness :
    (∀ ev ∈ [Select.msgRecv (some (exampleEnvelope 1 "/Result" [1, 2, 3])), Select.msgRecv none],
      regular exampleNode ev = true) ∧
    (search exampleNode (exampleCtx "bob" "" "" "" "" [10, 1])
      [Select.msgRecv (some (exampleEnvelope 1 "/Result" [1, 2, 3])), Select.msgRecv none]
      ).cancelClosed = false :=
  ⟨by decide,
   (cancel_open_without_context_done exampleNode (exampleCtx "bob" "" "" "" "" [10, 1]) "bob"
      (exampleEnvelope 1 "/ThreadEnvelope" [1])
      [Select.msgRecv (some (exampleEnvelope 1 "/Result" [1, 2, 3])), Select.msgRecv none]
      (by decide) (by decide) (by decide) (by decide)).1⟩

/-- Witness of C17 as amended: the well-formed envelope `[10, 1, 2]`, sent to
"alice" when she is unknown and when she is registered. -/
theorem deliver_same_reply_when_well_formed_witness :
    (deliverMessage exampleNode ⟨1700000000, 0⟩ (exampleCtx "" "" "bob" "alice" "" [10, 1, 2])
      ⟨emptyDb, []⟩).reply
      = (deliverMessage exampleNode ⟨1700000000, 0⟩
          (exampleCtx "" "" "bob" "alice" "" [10, 1, 2]) ⟨exampleDb, []⟩).reply :=
  (deliver_same_reply_when_well_formed exampleNode ⟨1700000000, 0⟩
    (exampleCtx "" "" "bob" "alice" "" [10, 1, 2]) ⟨emptyDb, []⟩ ⟨exampleDb, []⟩ alice
    (exampleEnvelope 1 "/ThreadEnvelope" [1, 2])
    { type := 1, payload := some { typeUrl := "/ThreadEnvelope", value := [1, 2] } }
    { thread := "t", node := [1, 2], block := none }
    (by decide) (by decide) (by decide) (by decide) (by decide) (by decide) (by decide)
    (by decide)).2.2

/-- Witness of C18: a delivery to "alice", whose notification fails on the
example node, compared with a node on which it succeeds. -/
theorem deliver_ignores_notification_witness :
    exampleNode.notifyClient "alice" = some "no open connection" ∧
    (deliverMessage { exampleNode with notifyClient := fun _ => none } ⟨1700000000, 0⟩
      (exampleCtx "" "" "bob" "alice" "" [10, 1, 2]) ⟨exampleDb, []⟩).reply = Reply.status 200 ∧
    (deliverMessage exampleNode ⟨1700000000, 0⟩
      (exampleCtx "" "" "bob" "alice" "" [10, 1, 2]) ⟨exampleDb, []⟩).reply = Reply.status 200 :=
  ⟨by decide,
   ((deliver_ignores_notification exampleNode (fun _ => none) ⟨1700000000, 0⟩
      (exampleCtx "" "" "bob" "alice" "" [10, 1, 2]) ⟨exampleDb, []⟩).2.2.2
      { id := "eoe", peer := "bob", client := "alice", date := ⟨1700000000, 0⟩ }
      (by decide)).2.1,
   ((deliver_ignores_notification exampleNode (fun _ => none) ⟨1700000000, 0⟩
      (exampleCtx "" "" "bob" "alice" "" [10, 1, 2]) ⟨exampleDb, []⟩).2.2.2
      { id := "eoe", peer := "bob", client := "alice", date := ⟨1700000000, 0⟩ }
      (by decide)).1⟩

/-- Witness of C19: on the node whose mailbox store refuses every write, the
three handlers run for the registered client "alice". -/
theorem store_failure_responds_500_witness :
    (storeThread faultyNode (exampleCtx "alice" "t1" "" "" "" [1, 2]) ⟨exampleDb, []⟩).reply
      = Reply.status 500 ∧
    (unstoreThread faultyNode (exampleCtx "alice" "t1" "" "" "" []) ⟨exampleDb, []⟩).reply
      = Reply.status 500 ∧
    (deliverMessage faultyNode ⟨1700000000, 0⟩ (exampleCtx "" "" "bob" "alice" "" [10, 1, 2])
      ⟨exampleDb, []⟩).reply = Reply.status 500 :=
  ⟨(store_failure_responds_500 faultyNode ⟨1700000000, 0⟩
      (exampleCtx "alice" "t1" "" "" "" [1, 2]) ⟨exampleDb, []⟩).1 (by decide),
   (store_failure_responds_500 faultyNode ⟨1700000000, 0⟩
      (exampleCtx "alice" "t1" "" "" "" []) ⟨exampleDb, []⟩).2.1 (by decide),
   (store_failure_responds_500 faultyNode ⟨1700000000, 0⟩
      (exampleCtx "" "" "bob" "alice" "" [10, 1, 2]) ⟨exampleDb, []⟩).2.2 (by decide)⟩

/-- Witness of C20 as amended: the empty string is not a content id. -/
theorem unstore_failures_respond_400_witness :
    exampleNode.cidDecode ((exampleCtx "" "" "" "" "" []).param "cid") = Res.err "invalid cid" ∧
    (unstore exampleNode (exampleCtx "" "" "" "" "" []) ⟨exampleDb, [directPin]⟩).reply
      = Reply.status 400 :=
  ⟨by decide,
   (unstore_failures_respond_400 exampleNode (exampleCtx "" "" "" "" "" [])
      ⟨exampleDb, [directPin]⟩).1 "invalid cid" (by decide)⟩


/-! ## Evaluations for the mobile wrapper, the options and the step order -/

/-- Witness of C21: an error of the core Start other than ErrStarted. -/
theorem mobile_start_again_witness :
    CoreError.other "repo is locked" ≠ ErrStarted ∧
    (Mobile.Start (some (CoreError.other "repo is locked"))).err
      = some (CoreError.other "repo is locked") :=
  ⟨by decide, (mobile_start_again (CoreError.other "repo is locked")).2.2.1 (by decide)⟩

/-- Witness of C22: an error of the core Stop other than ErrStopped. -/
theorem mobile_stop_again_witness :
    CoreError.other "datastore close failed" ≠ ErrStopped ∧
    Mobile.Stop (some (CoreError.other "datastore close failed"))
      = some (CoreError.other "datastore close failed") :=
  ⟨by decide, (mobile_stop_again (CoreError.other "datastore close failed")).2.2 (by decide)⟩

theorem oversizedPayload_length : oversizedPayload.length = 65536 :=
  List.length_replicate 65536 7

/-- The step at a result that carries a message and serializes to 65536
bytes: the stream stays open and the header of the chunk encodes 0. -/
theorem search_oversized_frame_example :
    oversizedResult.message ≠ none ∧
    exampleNode.marshalEnvelope oversizedResult = Res.ok oversizedPayload ∧
    65536 ≤ oversizedPayload.length ∧
    (searchStep exampleNode (Select.msgRecv (some oversizedResult)) Stream.init).1 = true ∧
    oversizedPayload.length % 65536 ≠ oversizedPayload.length :=
  ⟨by decide, rfl, by rw [oversizedPayload_length],
   (search_oversized_frame exampleNode Stream.init oversizedResult oversizedPayload
      (by decide) rfl (by rw [oversizedPayload_length])).1,
   (search_oversized_frame exampleNode Stream.init oversizedResult oversizedPayload
      (by decide) rfl (by rw [oversizedPayload_length])).2.2.2.2.2.1⟩

/-- C23, failing input: a result whose `Message` is nil and whose serialization
has 65536 bytes.  The step panics before serializing it: the stream ends and
no chunk is written, neither a header nor a payload byte. -/
theorem search_oversized_result_without_message :
    exampleNode.marshalEnvelope oversizedBareResult = Res.ok oversizedPayload ∧
    65536 ≤ oversizedPayload.length ∧
    searchStep exampleNode (Select.msgRecv (some oversizedBareResult)) Stream.init
      = (false, { Stream.init with panicked := true }) ∧
    (search exampleNode (exampleCtx "bob" "" "" "" "" [10, 1])
      [Select.msgRecv (some oversizedBareResult)]).chunks = [] ∧
    (search exampleNode (exampleCtx "bob" "" "" "" "" [10, 1])
      [Select.msgRecv (some oversizedBareResult)]).panicked = true :=
  ⟨rfl, by rw [oversizedPayload_length], rfl, by decide, by decide⟩

/-- Witness of C24: the envelope `[10, 10, 18, 5]` carries the node `[10]` and
the block `[5]`; the delivery runs to the end. -/
theorem deliver_step_order_witness :
    steps (deliverMessage exampleNode ⟨1700000000, 0⟩
      (exampleCtx "" "" "bob" "alice" "" [10, 10, 18, 5]) ⟨exampleDb, []⟩).trace
      = [Step.pinObject [10], Step.resolve, Step.pinRaw [5], Step.extract false,
         Step.pinRaw [10, 10, 18, 5]] :=
  ((deliver_step_order exampleNode ⟨1700000000, 0⟩
      (exampleCtx "" "" "bob" "alice" "" [10, 10, 18, 5]) ⟨exampleDb, []⟩ alice
      (exampleEnvelope 1 "/ThreadEnvelope" [10, 18, 5])
      { type := 1, payload := some { typeUrl := "/ThreadEnvelope", value := [10, 18, 5] } }
      { thread := "t", node := [10], block := some [5] }
      (by decide) (by decide) (by decide) (by decide) (by decide)).1 [5] rfl).2.1 (by decide)

/-- Witness of C25: an id that names no mill, and a resize request whose
quality option is empty. -/
theorem getMill_cases_witness :
    getMill "/json" ((StrMap.empty.set "width" "100").set "quality" "") = (none, none) ∧
    getMill "/image/resize" ((StrMap.empty.set "width" "100").set "quality" "")
      = (some (Mill.ImageResize "100" "75"), none) :=
  ⟨(getMill_cases "/json" ((StrMap.empty.set "width" "100").set "quality" "")).2.2.2.2
      (by decide) (by decide) (by decide),
   (getMill_cases "/json" ((StrMap.empty.set "width" "100").set "quality" "")).2.2.2.1
      "100" (by decide) (by decide)⟩

/-- Witness of C26: a header with a repeated key, a key and a value with
inner blanks, a segment without "=", one with two, an empty one, an empty key
and an empty value; the white space around a segment is trimmed, the white
space inside it is kept. -/
theorem readOpts_spec_witness :
    (readOpts " a=1, b = 2,c,d=3=4,,a=5 ,=x,y=").1 "a"
      = optsOf " a=1, b = 2,c,d=3=4,,a=5 ,=x,y=" "a" ∧
    optsOf " a=1, b = 2,c,d=3=4,,a=5 ,=x,y=" "a" = some "5" ∧
    optsOf " a=1, b = 2,c,d=3=4,,a=5 ,=x,y=" " a" = none ∧
    optsOf " a=1, b = 2,c,d=3=4,,a=5 ,=x,y=" "b " = some " 2" ∧
    optsOf " a=1, b = 2,c,d=3=4,,a=5 ,=x,y=" "c" = none ∧
    optsOf " a=1, b = 2,c,d=3=4,,a=5 ,=x,y=" "d" = none ∧
    optsOf "\t a=1 \n" "a" = some "1" ∧
    keptSegments " a=1, b = 2,c,d=3=4,,a=5 ,=x,y="
      = ["a=1".toList, "b = 2".toList, "a=5".toList, "=x".toList, "y=".toList] :=
  ⟨(readOpts_spec " a=1, b = 2,c,d=3=4,,a=5 ,=x,y=" "a").2.1,
   by decide, by decide, by decide, by decide, by decide, by decide, by decide⟩

/-- An evaluation of `readOpts`: a repeated key, a key and a value with inner
blanks, a segment without "=", one with two, an empty one, an empty key and an
empty value. -/
theorem readOpts_example :
    (readOpts " a=1, b = 2,c,d=3=4,,a=5 ,=x,y=").1 "a" = some "5" ∧
    (readOpts " a=1, b = 2,c,d=3=4,,a=5 ,=x,y=").1 "b " = some " 2" ∧
    (readOpts " a=1, b = 2,c,d=3=4,,a=5 ,=x,y=").1 "c" = none ∧
    (readOpts " a=1, b = 2,c,d=3=4,,a=5 ,=x,y=").1 "d" = none ∧
    (readOpts " a=1, b = 2,c,d=3=4,,a=5 ,=x,y=").1 "" = some "x" ∧
    (readOpts " a=1, b = 2,c,d=3=4,,a=5 ,=x,y=").1 "y" = some "" ∧
    (readOpts "").1 "" = none := by
  decide


end Textile
